import Mathlib

/-! # Translation history store and translation service

A shallow embedding of the stateful logic of the two screens of the translator
application:

* `src/screens/HomeScreen.jsx`: `loadLastTranslations`, `saveTranslation`, `translateText`;
* `src/screens/HistoryScreen.jsx`: `loadTranslations`, `deleteTranslation`, `clearAllHistory`.

React state cells become fields of a record, the `AsyncStorage` key `translations` becomes an
optional blob, and everything the environment decides (clock readings, whether a storage call
rejects, what the network returns, which button of a dialog is pressed) is an explicit argument.
Each function is run to completion before the next one starts.
-/

namespace Translator

/-! ## JavaScript values -/

/-- The JavaScript values the program handles: `undefined` and what `JSON.parse` can return.
Numbers are represented by integers; the program only ever tests a number for being zero.
Strings are Lean strings. Property lists of objects are taken to have distinct keys. -/
inductive JsVal where
  | undefined
  | null
  | bool (b : Bool)
  | num (n : Int)
  | str (s : String)
  | arr (xs : List JsVal)
  | obj (kvs : List (String × JsVal))
deriving Repr, Inhabited

/-- The exceptions that can be raised while the program runs. -/
inductive JsError where
  /-- The object built by `new Error(message)`. -/
  | error (message : JsVal)
  /-- The `TypeError` raised by reading a property of `null` or `undefined`, or by calling
  something that is not a function. -/
  | typeError
  /-- The `SyntaxError` raised by `JSON.parse` and by `response.json()`. -/
  | syntaxError
  /-- The rejection of `fetch` when no response is obtained. -/
  | networkError
  /-- The rejection of an `AsyncStorage` call. -/
  | storageError
deriving Repr, Inhabited

/-- JavaScript truthiness (`ToBoolean`). -/
def truthy : JsVal → Bool
  | .undefined => false
  | .null => false
  | .bool b => b
  | .num n => n != 0
  | .str s => s != ""
  | .arr _ => true
  | .obj _ => true

/-- The read `v.k` for the property names the program reads (`data`, `translations`, `error`,
`message`, `translatedText`, `id`): none of them is defined on a primitive, on an array or on
`Object.prototype`, so only an own property of an object yields something else than
`undefined`. -/
def getProp (v : JsVal) (k : String) : Except JsError JsVal :=
  match v with
  | .undefined => .error .typeError
  | .null => .error .typeError
  | .obj kvs => .ok ((kvs.lookup k).getD .undefined)
  | _ => .ok .undefined

/-- The read `v[0]`. On a string it is the first character (exact for strings of the Basic
Multilingual Plane). -/
def getIndex0 (v : JsVal) : Except JsError JsVal :=
  match v with
  | .undefined => .error .typeError
  | .null => .error .typeError
  | .arr xs => .ok (xs.head?.getD .undefined)
  | .obj kvs => .ok ((kvs.lookup "0").getD .undefined)
  | .str s => .ok ((s.toList.head?.map (fun c => JsVal.str (String.singleton c))).getD .undefined)
  | _ => .ok .undefined

/-- The operator `a && b`: `a` when `a` is falsy, otherwise `b` (evaluated only then). -/
def jsAnd (a : JsVal) (b : Except JsError JsVal) : Except JsError JsVal :=
  if truthy a then b else .ok a

/-- The comparison `v !== s` against a string `s`. -/
def strictNeStr (v : JsVal) (s : String) : Bool :=
  match v with
  | .str t => t != s
  | _ => true

/-! ## JSON serialisation

The stored string is only ever observed through `JSON.parse`, so a stored string is represented
by what `JSON.parse` makes of it. -/

mutual
/-- The value `JSON.parse(JSON.stringify(v))` for `v` inside an array or an object:
`undefined` array elements become `null`, `undefined` properties are dropped. -/
def jsonify : JsVal → JsVal
  | .arr xs => .arr (jsonifyElems xs)
  | .obj kvs => .obj (jsonifyProps kvs)
  | .undefined => .null
  | v => v
/-- The elements of an array after `JSON.stringify`. -/
def jsonifyElems : List JsVal → List JsVal
  | [] => []
  | x :: xs => jsonify x :: jsonifyElems xs
/-- The properties of an object after `JSON.stringify`. -/
def jsonifyProps : List (String × JsVal) → List (String × JsVal)
  | [] => []
  | (_, .undefined) :: kvs => jsonifyProps kvs
  | (k, v) :: kvs => (k, jsonify v) :: jsonifyProps kvs
end

/-- A string held by `AsyncStorage`, up to what `JSON.parse` returns for it. -/
inductive Blob where
  /-- A JSON text, given by the value it parses to. -/
  | json (v : JsVal)
  /-- A string that is not a JSON text. -/
  | garbage (raw : String)
deriving Repr, Inhabited

/-- The call `JSON.stringify(xs)` on an array. -/
def stringify (xs : List JsVal) : Blob :=
  .json (.arr (jsonifyElems xs))

/-- The call `JSON.parse(b)`. -/
def parse (b : Blob) : Except JsError JsVal :=
  match b with
  | .json v => .ok v
  | .garbage _ => .error .syntaxError

/-! ## Clock and identifiers -/

/-- The decimal digit character of a digit. -/
def digitChar (d : Nat) : Char :=
  match d with
  | 0 => '0'
  | 1 => '1'
  | 2 => '2'
  | 3 => '3'
  | 4 => '4'
  | 5 => '5'
  | 6 => '6'
  | 7 => '7'
  | 8 => '8'
  | _ => '9'

/-- The decimal digit characters of a natural number, least significant first; `fuel` bounds
the number of digits produced. -/
def decimalChars : Nat → Nat → List Char
  | 0, _ => []
  | fuel + 1, n =>
    if n < 10 then [digitChar n] else digitChar (n % 10) :: decimalChars fuel (n / 10)

/-- The decimal numeral of a natural number. -/
def decimalNat (n : Nat) : String :=
  String.mk (decimalChars (n + 1) n).reverse

/-- The call `t.toString()` on the integer `t` returned by `Date.now()`: a time value has
magnitude at most 8.64e15, and for such an integer the result is its plain decimal numeral,
with a leading minus sign when it is negative. -/
def numberToString (t : Int) : String :=
  if t < 0 then String.mk ('-' :: (decimalNat t.natAbs).data) else decimalNat t.toNat

/-- The two clock reads of `saveTranslation`: `Date.now()` in milliseconds since the epoch and
`new Date().toISOString()`. -/
structure Clock where
  nowMs : Int
  iso : String
deriving Repr, Inhabited, DecidableEq

/-! ## State -/

/-- What the program leaves in the outside world, in the order it happens. -/
inductive Event where
  /-- The `fetch` POST to the translation endpoint, with the fields of its body. -/
  | request (q source target format : String)
  /-- The call `console.error(label, e)` with a caught exception. -/
  | consoleError (label : String) (e : JsError)
  /-- The call `console.error(label, v)` with a value. -/
  | consoleErrorVal (label : String) (v : JsVal)
  /-- The call `Alert.alert(title, message, buttons)`. -/
  | alert (title message : String) (buttons : List String)
deriving Repr, Inhabited

/-- The state cells of `HomeScreen` (the two modal flags are left out). -/
structure HomeState where
  inputText : String
  translatedText : JsVal
  sourceLanguage : String
  targetLanguage : String
  isLoading : Bool
  lastTranslations : JsVal
deriving Repr, Inhabited

/-- The state cell of `HistoryScreen`. -/
structure HistoryState where
  translations : JsVal
deriving Repr, Inhabited

/-- The whole application: both screens, the value stored under the key `translations`
(`none` when the key is absent) and the events so far. -/
structure App where
  home : HomeState
  history : HistoryState
  storage : Option Blob
  log : List Event
deriving Repr, Inhabited

/-- The result of running a function: the state it leaves and the exception that escaped it,
if any. -/
structure Outcome where
  app : App
  escaped : Option JsError
deriving Repr, Inhabited

/-- The state of a freshly mounted home screen (`useState` initial values). -/
def HomeState.initial : HomeState :=
  { inputText := "", translatedText := .str "", sourceLanguage := "en", targetLanguage := "es",
    isLoading := false, lastTranslations := .arr [] }

/-- The state of a freshly mounted history screen. -/
def HistoryState.initial : HistoryState :=
  { translations := .arr [] }

/-- The application at first launch: nothing stored, nothing logged. -/
def App.initial : App :=
  { home := HomeState.initial, history := HistoryState.initial, storage := none, log := [] }

/-- Append an event to the log. -/
def App.emit (a : App) (e : Event) : App :=
  { a with log := a.log ++ [e] }

/-- The call `setLastTranslations(v)`. -/
def App.setLastTranslations (a : App) (v : JsVal) : App :=
  { a with home := { a.home with lastTranslations := v } }

/-- The call `setTranslatedText(v)`. -/
def App.setTranslatedText (a : App) (v : JsVal) : App :=
  { a with home := { a.home with translatedText := v } }

/-- The call `setIsLoading(b)`. -/
def App.setIsLoading (a : App) (b : Bool) : App :=
  { a with home := { a.home with isLoading := b } }

/-- The call `setTranslations(v)`, as the update of the state cell. The render that follows
is accounted for in `HistoryScreen.loadTranslationsBody`, the one place where a value other
than an array can be set. -/
def App.setTranslations (a : App) (v : JsVal) : App :=
  { a with history := { translations := v } }

/-- The call `AsyncStorage.getItem('translations')`: rejects when `ok` is false. -/
def App.getItem (a : App) (ok : Bool) : Except JsError (Option Blob) :=
  if ok then .ok a.storage else .error .storageError

/-- The call `AsyncStorage.setItem('translations', b)`: when `ok` is false it rejects and the
stored value stays as it was. -/
def App.setItem (a : App) (ok : Bool) (b : Blob) : App × Option JsError :=
  if ok then ({ a with storage := some b }, none) else (a, some .storageError)

/-- The call `AsyncStorage.removeItem('translations')`: when `ok` is false it rejects and the
stored value stays as it was. -/
def App.removeItem (a : App) (ok : Bool) : App × Option JsError :=
  if ok then ({ a with storage := none }, none) else (a, some .storageError)

/-! ## Home screen (`src/screens/HomeScreen.jsx`) -/

/-- A `try` block followed by `catch (error) { console.error(label, error) }`: a raised
exception is logged and does not leave the function. -/
def tryCatchLog (label : String) (body : App × Option JsError) : Outcome :=
  match body.2 with
  | none => { app := body.1, escaped := none }
  | some e => { app := body.1.emit (.consoleError label e), escaped := none }

namespace HomeScreen

/-- The `try` block of `loadLastTranslations` (lines 52-55). -/
def loadLastTranslationsBody (readOk : Bool) (a : App) : App × Option JsError :=
  match a.getItem readOk with
  | .error e => (a, some e)
  | .ok none => (a, none)
  | .ok (some savedTranslations) =>
    match parse savedTranslations with
    | .error e => (a, some e)
    | .ok v => (a.setLastTranslations v, none)

/-- The function `loadLastTranslations` (lines 50-59), run on mount. -/
def loadLastTranslations (readOk : Bool) (a : App) : Outcome :=
  tryCatchLog "Error loading translations:" (loadLastTranslationsBody readOk a)

/-- The object literal `newTranslation` of `saveTranslation` (lines 63-70). -/
def newTranslation (clk : Clock) (src tgt original : String) (translated : JsVal) : JsVal :=
  .obj [("id", .str (numberToString clk.nowMs)),
        ("timestamp", .str clk.iso),
        ("sourceLanguage", .str src),
        ("targetLanguage", .str tgt),
        ("originalText", .str original),
        ("translatedText", translated)]

/-- The elements spread by `...lastTranslations.slice(0, 9)`: the first nine elements of an
array, the first nine characters of a string (exact for strings of the Basic Multilingual
Plane); any other value has no callable `slice`. -/
def sliceSpread (v : JsVal) : Except JsError (List JsVal) :=
  match v with
  | .arr xs => .ok (xs.take 9)
  | .str s => .ok ((s.toList.take 9).map (fun c => JsVal.str (String.singleton c)))
  | _ => .error .typeError

/-- The `try` block of `saveTranslation` (lines 63-74). -/
def saveTranslationBody (clk : Clock) (writeOk : Bool) (src tgt original : String)
    (translated : JsVal) (a : App) : App × Option JsError :=
  match sliceSpread a.home.lastTranslations with
  | .error e => (a, some e)
  | .ok rest =>
    let updatedTranslations := newTranslation clk src tgt original translated :: rest
    (a.setLastTranslations (.arr updatedTranslations)).setItem writeOk
      (stringify updatedTranslations)

/-- The function `saveTranslation` (lines 61-78). -/
def saveTranslation (clk : Clock) (writeOk : Bool) (src tgt original : String)
    (translated : JsVal) (a : App) : Outcome :=
  tryCatchLog "Error saving translation:" (saveTranslationBody clk writeOk src tgt original translated a)

/-- What the network does with the request of `translateText`. -/
inductive FetchResult where
  /-- No response is obtained: `fetch` rejects. -/
  | noResponse
  /-- A response whose body is not JSON: `response.json()` rejects. -/
  | notJson
  /-- A response whose body parses to `data`. -/
  | parsed (data : JsVal)
deriving Repr, Inhabited

/-- The value of `data.data && data.data.translations && data.data.translations[0]`
(line 111). -/
def firstTranslation (data : JsVal) : Except JsError JsVal := do
  let d ← getProp data "data"
  jsAnd d (do
    let ts ← getProp d "translations"
    jsAnd ts (getIndex0 ts))

/-- The statements of the `try` block of `translateText` after `response.json()`
(lines 111-120). -/
def handleResponse (clk : Clock) (writeOk : Bool) (data : JsVal) (a : App) :
    App × Option JsError :=
  match firstTranslation data with
  | .error e => (a, some e)
  | .ok entry =>
    if truthy entry then
      match getProp entry "translatedText" with
      | .error e => (a, some e)
      | .ok translatedText =>
        let a1 := a.setTranslatedText translatedText
        ((saveTranslation clk writeOk a.home.sourceLanguage a.home.targetLanguage
            a.home.inputText translatedText a1).app, none)
    else
      match getProp data "error" with
      | .error e => (a, some e)
      | .ok err =>
        if truthy err then
          match getProp err "message" with
          | .error e => (a, some e)
          | .ok message =>
            (a.emit (.consoleErrorVal "API Error:" message), some (.error message))
        else
          (a, some (.error (.str "Unexpected API response format")))

/-- The `try` block of `translateText` (lines 93-120). -/
def translateTextBody (net : FetchResult) (clk : Clock) (writeOk : Bool) (a : App) :
    App × Option JsError :=
  let a1 := a.emit (.request a.home.inputText a.home.sourceLanguage a.home.targetLanguage "text")
  match net with
  | .noResponse => (a1, some .networkError)
  | .notJson => (a1, some .syntaxError)
  | .parsed data => handleResponse clk writeOk data a1

/-- The function `translateText` (lines 87-133). -/
def translateText (net : FetchResult) (clk : Clock) (writeOk : Bool) (a : App) : Outcome :=
  if a.home.inputText = "" then { app := a, escaped := none }
  else
    let body := translateTextBody net clk writeOk (a.setIsLoading true)
    match body.2 with
    | none => { app := body.1.setIsLoading false, escaped := none }
    | some e =>
      let a1 := body.1.emit (.consoleError "Translation error:" e)
      let a2 := a1.emit (.alert "Connection Error"
        "Could not connect to translation service. Please check your internet connection and try again."
        ["OK"])
      { app := (a2.setIsLoading false).setIsLoading false, escaped := none }

end HomeScreen

/-! ## History screen (`src/screens/HistoryScreen.jsx`) -/

namespace HistoryScreen

/-- The read `translations.length` with which the render of the history screen starts
(line 160): it raises on `null` and `undefined` and on nothing else. What the render does
with the entries afterwards (the list component and `renderTranslationItem`) is not part of
the embedding. -/
def renderLength (v : JsVal) : Option JsError :=
  match v with
  | .undefined => some .typeError
  | .null => some .typeError
  | _ => none

/-- The `try` block of `loadTranslations` (lines 41-44). The state update of line 43 is made
after an `await`, outside any event handler; the render it triggers is taken to run inside
the setter call, as under a legacy root, so that an exception raised by the first read of the
render is raised by line 43. -/
def loadTranslationsBody (readOk : Bool) (a : App) : App × Option JsError :=
  match a.getItem readOk with
  | .error e => (a, some e)
  | .ok none => (a, none)
  | .ok (some savedTranslations) =>
    match parse savedTranslations with
    | .error e => (a, some e)
    | .ok v => (a.setTranslations v, renderLength v)

/-- The function `loadTranslations` (lines 39-48), run on mount. -/
def loadTranslations (readOk : Bool) (a : App) : Outcome :=
  tryCatchLog "Error loading translations:" (loadTranslationsBody readOk a)

/-- The call `xs.filter(item => item.id !== id)` (line 53); the callback raises on an item
that is `null`. -/
def filterById (id : String) : List JsVal → Except JsError (List JsVal)
  | [] => .ok []
  | item :: rest => do
    let itemId ← getProp item "id"
    let kept ← filterById id rest
    pure (if strictNeStr itemId id then item :: kept else kept)

/-- The call `translations.filter(...)`: only an array has a callable `filter`. -/
def filterTranslations (id : String) (v : JsVal) : Except JsError (List JsVal) :=
  match v with
  | .arr xs => filterById id xs
  | _ => .error .typeError

/-- The `try` block of `deleteTranslation` (lines 53-55). -/
def deleteTranslationBody (id : String) (writeOk : Bool) (a : App) : App × Option JsError :=
  match filterTranslations id a.history.translations with
  | .error e => (a, some e)
  | .ok updatedTranslations =>
    (a.setTranslations (.arr updatedTranslations)).setItem writeOk
      (stringify updatedTranslations)

/-- The function `deleteTranslation` (lines 51-59), for a string `id`. -/
def deleteTranslation (id : String) (writeOk : Bool) (a : App) : Outcome :=
  tryCatchLog "Error deleting translation:" (deleteTranslationBody id writeOk a)

/-- The `try` block of the `Delete` button of `clearAllHistory` (lines 76-77). -/
def clearConfirmedBody (removeOk : Bool) (a : App) : App × Option JsError :=
  match a.removeItem removeOk with
  | (a1, none) => (a1.setTranslations (.arr []), none)
  | (a1, some e) => (a1, some e)

/-- The handler of the `Delete` button of `clearAllHistory` (lines 74-81). -/
def clearConfirmed (removeOk : Bool) (a : App) : Outcome :=
  tryCatchLog "Error clearing history:" (clearConfirmedBody removeOk a)

/-- The function `clearAllHistory` (lines 62-85): the dialog is shown, and the handler of the
`Delete` button runs when the user confirms. -/
def clearAllHistory (confirmed : Bool) (removeOk : Bool) (a : App) : Outcome :=
  let a1 := a.emit (.alert "Clear History"
    "Are you sure you want to delete all translation history?" ["Cancel", "Delete"])
  if confirmed then clearConfirmed removeOk a1 else { app := a1, escaped := none }

end HistoryScreen

/-! ## The history as a sequence of records -/

/-- One entry of the history, with the six string fields of the data model. -/
structure TranslationRecord where
  id : String
  timestamp : String
  sourceLanguage : String
  targetLanguage : String
  originalText : String
  translatedText : String
deriving Repr, Inhabited, DecidableEq

/-- The JavaScript object of a record, with the properties in the order `saveTranslation`
writes them. -/
def TranslationRecord.toJs (r : TranslationRecord) : JsVal :=
  .obj [("id", .str r.id),
        ("timestamp", .str r.timestamp),
        ("sourceLanguage", .str r.sourceLanguage),
        ("targetLanguage", .str r.targetLanguage),
        ("originalText", .str r.originalText),
        ("translatedText", .str r.translatedText)]

/-- The JavaScript array of a sequence of records. -/
def historyOf (rs : List TranslationRecord) : JsVal :=
  .arr (rs.map TranslationRecord.toJs)

/-- The record `saveTranslation` builds from its arguments and the clock. -/
def recordOf (clk : Clock) (src tgt original translated : String) : TranslationRecord :=
  { id := numberToString clk.nowMs, timestamp := clk.iso, sourceLanguage := src,
    targetLanguage := tgt, originalText := original, translatedText := translated }

/-- The operation `loadAll`: what a freshly mounted history screen holds once
`loadTranslations` has run with a successful read. -/
def loadAll (a : App) : JsVal :=
  (HistoryScreen.loadTranslations true
    { a with history := HistoryState.initial }).app.history.translations

/-- One call of `saveTranslation` with string arguments, together with what the environment
does during the call. -/
structure Append where
  clk : Clock
  writeOk : Bool
  src : String
  tgt : String
  original : String
  translated : String
deriving Repr, Inhabited, DecidableEq

/-- The record stored by an append. -/
def Append.record (p : Append) : TranslationRecord :=
  recordOf p.clk p.src p.tgt p.original p.translated

/-- Run one append on the home screen. -/
def Append.run (p : Append) (a : App) : App :=
  (HomeScreen.saveTranslation p.clk p.writeOk p.src p.tgt p.original (.str p.translated) a).app

/-- Run appends one after another, each on the state left by the previous one. -/
def appendAll (ps : List Append) (a : App) : App :=
  ps.foldl (fun acc p => p.run acc) a

/-! ## Sequences of operations -/

/-- The operations a user session is made of, each with what the environment does during it. -/
inductive Op where
  /-- A call of `saveTranslation` on the home screen. -/
  | append (clk : Clock) (writeOk : Bool) (src tgt original : String) (translated : JsVal)
  /-- A call of `deleteTranslation` on the history screen. -/
  | remove (id : String) (writeOk : Bool)
  /-- A call of `clearAllHistory` on the history screen. -/
  | clear (confirmed removeOk : Bool)
  /-- The history screen is opened: it is mounted afresh and `loadTranslations` runs. -/
  | openHistory (readOk : Bool)
  /-- The call of `loadLastTranslations` on the home screen. -/
  | loadHome (readOk : Bool)
deriving Repr, Inhabited

/-- Run one operation. -/
def Op.run (op : Op) (a : App) : App :=
  match op with
  | .append clk writeOk src tgt original translated =>
    (HomeScreen.saveTranslation clk writeOk src tgt original translated a).app
  | .remove id writeOk => (HistoryScreen.deleteTranslation id writeOk a).app
  | .clear confirmed removeOk => (HistoryScreen.clearAllHistory confirmed removeOk a).app
  | .openHistory readOk =>
    (HistoryScreen.loadTranslations readOk { a with history := HistoryState.initial }).app
  | .loadHome readOk => (HomeScreen.loadLastTranslations readOk a).app

/-- Run operations one after another. -/
def runOps (ops : List Op) (a : App) : App :=
  ops.foldl (fun acc op => op.run acc) a

/-- The clock readings `Date.now()` of the appends of a sequence of operations. -/
def appendTimes : List Op → List Int
  | [] => []
  | .append clk _ _ _ _ _ :: ops => clk.nowMs :: appendTimes ops
  | _ :: ops => appendTimes ops

/-- The value `item.id` of an entry when it is a string. -/
def entryId (v : JsVal) : Option String :=
  match v with
  | .obj kvs =>
    match kvs.lookup "id" with
    | some (.str s) => some s
    | _ => none
  | _ => none

/-- The value is an array of at most ten entries. -/
def boundedSeq (v : JsVal) : Bool :=
  match v with
  | .arr xs => decide (xs.length ≤ 10)
  | _ => false

/-- The key is absent or holds the JSON text of an array of at most ten entries. -/
def boundedStore (s : Option Blob) : Bool :=
  match s with
  | none => true
  | some (.json v) => boundedSeq v
  | some (.garbage _) => false

/-- The value is an array of entries that all carry a string id, no two of them the same. -/
def distinctIds (v : JsVal) : Bool :=
  match v with
  | .arr xs => (xs.map entryId).all Option.isSome && decide (xs.map entryId).Nodup
  | _ => false

/-- The key is absent or holds the JSON text of an array of entries with pairwise distinct
string ids. -/
def distinctIdsStore (s : Option Blob) : Bool :=
  match s with
  | none => true
  | some (.json v) => distinctIds v
  | some (.garbage _) => false

/-! ## What the user is shown -/

/-- The messages of the alerts among some events, in order. -/
def alertMessages : List Event → List String
  | [] => []
  | .alert _ message _ :: es => message :: alertMessages es
  | _ :: es => alertMessages es

/-- The messages `translateText` shows to the user: those of the alerts it raises. -/
def surfaced (net : HomeScreen.FetchResult) (clk : Clock) (writeOk : Bool) (a : App) :
    List String :=
  alertMessages ((HomeScreen.translateText net clk writeOk a).app.log.drop a.log.length)

/-- The text of the alert in the `catch` block of `translateText` (line 126). -/
def connectionMessage : String :=
  "Could not connect to translation service. Please check your internet connection and try again."

/-- The text `m` occurs in the message `msg`. -/
def occursIn (m msg : String) : Prop :=
  m.data <:+: msg.data

/-! ## Reading a decimal numeral back -/

/-- The digit a decimal digit character stands for. -/
def digitVal (c : Char) : Nat :=
  if c = '1' then 1
  else if c = '2' then 2
  else if c = '3' then 3
  else if c = '4' then 4
  else if c = '5' then 5
  else if c = '6' then 6
  else if c = '7' then 7
  else if c = '8' then 8
  else if c = '9' then 9
  else 0

/-- The number written by decimal digit characters, least significant first. -/
def decimalValue : List Char → Nat
  | [] => 0
  | c :: cs => digitVal c + 10 * decimalValue cs

/-- Every entry of the array carries as id the numeral of one of the clock readings `ts`, and
no two entries carry the same id. -/
def IdsFrom (ts : List Int) (v : JsVal) : Prop :=
  ∃ xs, v = .arr xs ∧ (∀ x ∈ xs, ∃ t ∈ ts, entryId x = some (numberToString t)) ∧
    (xs.map entryId).Nodup

/-- The key is absent or holds an array whose ids come from `ts` without repetition. -/
def StoreIdsFrom (ts : List Int) (s : Option Blob) : Prop :=
  s = none ∨ ∃ v, s = some (.json v) ∧ IdsFrom ts v

/-- The ids of both screens and of the store come from `ts` without repetition. -/
def AppIds (ts : List Int) (a : App) : Prop :=
  IdsFrom ts a.home.lastTranslations ∧ IdsFrom ts a.history.translations ∧
    StoreIdsFrom ts a.storage

/-! ## Sample inputs -/

/-- The clock of the sample appends: one millisecond apart. -/
def sampleClock (i : Nat) : Clock :=
  { nowMs := 1700000000000 + i, iso := "2023-11-14T12:00:00.000Z" }

/-- The append of the scenario of the specification: `hello` to `hola`, English to Spanish. -/
def helloAppend : Append :=
  { clk := sampleClock 0, writeOk := true, src := "en", tgt := "es", original := "hello",
    translated := "hola" }

/-- A further append, number `i`. -/
def sampleAppend (i : Nat) : Append :=
  { clk := sampleClock (i + 1), writeOk := true, src := "en", tgt := "fr",
    original := "word " ++ decimalNat i, translated := "mot " ++ decimalNat i }

/-- Eleven appends: the scenario append followed by ten more. -/
def elevenAppends : List Append :=
  helloAppend :: (List.range 10).map sampleAppend

/-- The record of the persisted-layout example of the specification. -/
def helloRecord : TranslationRecord :=
  { id := "1700000000000", timestamp := "2023-11-14T12:00:00.000Z", sourceLanguage := "en",
    targetLanguage := "es", originalText := "hello", translatedText := "hola" }

/-- A second record, one millisecond younger. -/
def worldRecord : TranslationRecord :=
  { id := "1700000000001", timestamp := "2023-11-14T12:00:00.001Z", sourceLanguage := "en",
    targetLanguage := "fr", originalText := "world", translatedText := "monde" }

/-- A two-entry history, most recent first. -/
def sampleHistory : List TranslationRecord :=
  [worldRecord, helloRecord]

/-- An application whose two screens and store all hold the sample history. -/
def sampleApp : App :=
  { home := { HomeState.initial with lastTranslations := historyOf sampleHistory },
    history := { translations := historyOf sampleHistory },
    storage := some (.json (historyOf sampleHistory)),
    log := [] }

/-- The initial application once the user has typed `hello`. -/
def typingApp : App :=
  { App.initial with home := { HomeState.initial with inputText := "hello" } }

/-- The parsed error response of the scenario of the specification. -/
def invalidValueResponse : JsVal :=
  .obj [("error", .obj [("message", .str "Invalid Value")])]

/-- A parsed response whose translations array has one entry, `null`. -/
def nullEntryResponse : JsVal :=
  .obj [("data", .obj [("translations", .arr [.null])])]

/-- A parsed success response that also carries an error object. -/
def holaResponse : JsVal :=
  .obj [("error", .obj [("message", .str "ignored")]),
        ("data", .obj [("translations", .arr [.obj [("translatedText", .str " hola ")]])])]

/-- Two appends that read the same millisecond from the clock. -/
def sameMillisecondOps : List Op :=
  [.append (sampleClock 0) true "en" "es" "hello" (.str "hola"),
   .append (sampleClock 0) true "en" "fr" "hello" (.str "bonjour")]

/-- A session with two appends at different clock readings, a visit of the history screen,
a removal and a clear. -/
def sampleSession : List Op :=
  [.append (sampleClock 0) true "en" "es" "hello" (.str "hola"),
   .openHistory true,
   .remove "1700000000000" true,
   .append (sampleClock 1) false "en" "fr" "world" (.str "monde"),
   .clear true true]

/-- An application whose store holds the JSON text of an object, not of an array. -/
def objectStoreApp : App :=
  { App.initial with storage := some (.json (.obj [("version", .num 2)])) }

/-- An application whose store holds a string that is not a JSON text. -/
def garbageStoreApp : App :=
  { App.initial with storage := some (.garbage "[oops") }

/-- An application at launch whose store holds a one-entry history. -/
def storedApp : App :=
  { App.initial with storage := some (.json (historyOf [helloRecord])) }

/-- The home screen loads the store, the user opens the history screen and clears the
history, then a translation is appended on the home screen. -/
def clearThenAppend : List Op :=
  [.loadHome true,
   .openHistory true,
   .clear true true,
   .append (sampleClock 1) true "en" "fr" "world" (.str "monde")]

/-! ## Basic facts about the embedding -/

theorem jsonifyElems_length (xs : List JsVal) : (jsonifyElems xs).length = xs.length := by
  induction xs with
  | nil => rfl
  | cons x xs ih => simp [jsonifyElems, ih]

theorem jsonify_toJs (r : TranslationRecord) : jsonify r.toJs = r.toJs := by
  simp [TranslationRecord.toJs, jsonify, jsonifyProps]

theorem jsonifyElems_records (rs : List TranslationRecord) :
    jsonifyElems (rs.map TranslationRecord.toJs) = rs.map TranslationRecord.toJs := by
  induction rs with
  | nil => rfl
  | cons r rs ih => simp [jsonifyElems, ih, jsonify_toJs]

theorem stringify_records (rs : List TranslationRecord) :
    stringify (rs.map TranslationRecord.toJs) = .json (historyOf rs) := by
  simp [stringify, historyOf, jsonifyElems_records]

theorem newTranslation_str (clk : Clock) (src tgt original translated : String) :
    HomeScreen.newTranslation clk src tgt original (.str translated)
      = (recordOf clk src tgt original translated).toJs := rfl

theorem saveTranslation_arr (clk : Clock) (writeOk : Bool) (src tgt original : String)
    (translated : JsVal) (a : App) (xs : List JsVal) (h : a.home.lastTranslations = .arr xs) :
    HomeScreen.saveTranslation clk writeOk src tgt original translated a =
      if writeOk then
        { app := { a.setLastTranslations
                    (.arr (HomeScreen.newTranslation clk src tgt original translated :: xs.take 9))
                   with storage := some (stringify
                    (HomeScreen.newTranslation clk src tgt original translated :: xs.take 9)) },
          escaped := none }
      else
        { app := (a.setLastTranslations
                    (.arr (HomeScreen.newTranslation clk src tgt original translated
                      :: xs.take 9))).emit
                    (.consoleError "Error saving translation:" .storageError),
          escaped := none } := by
  cases writeOk <;>
    simp [HomeScreen.saveTranslation, HomeScreen.saveTranslationBody, HomeScreen.sliceSpread, h,
      tryCatchLog, App.setItem]

theorem append_run_records (p : Append) (a : App) (rs : List TranslationRecord)
    (h : a.home.lastTranslations = historyOf rs) :
    (p.run a).home.lastTranslations = historyOf (p.record :: rs.take 9) ∧
    (p.run a).storage =
      (if p.writeOk then some (.json (historyOf (p.record :: rs.take 9))) else a.storage) ∧
    (p.run a).history = a.history := by
  have hs := saveTranslation_arr p.clk p.writeOk p.src p.tgt p.original (.str p.translated) a
    (rs.map TranslationRecord.toJs) h
  have hrec : HomeScreen.newTranslation p.clk p.src p.tgt p.original (.str p.translated)
      :: List.take 9 (rs.map TranslationRecord.toJs)
      = (p.record :: rs.take 9).map TranslationRecord.toJs := by
    simp [newTranslation_str, Append.record, List.map_take]
  rw [hrec, stringify_records] at hs
  unfold Append.run
  rw [hs]
  cases p.writeOk <;> simp [App.setLastTranslations, App.emit, historyOf]

/-- The pure shape of one append on a sequence of records. -/
theorem take_append_cons_take {α : Type} (front : List α) (r : α) (rs : List α) :
    (front ++ r :: rs.take 9).take 10 = (front ++ r :: rs).take 10 := by
  rw [List.take_append_eq_append_take, List.take_append_eq_append_take]
  congr 1
  cases hk : 10 - front.length with
  | zero => rfl
  | succ k =>
    have hk9 : k ≤ 9 := by omega
    simp [List.take_take, hk9]

theorem appendAll_records (ps : List Append) :
    ∀ (a : App) (rs : List TranslationRecord), rs.length ≤ 10 →
      a.home.lastTranslations = historyOf rs →
      (appendAll ps a).home.lastTranslations
        = historyOf (((ps.map Append.record).reverse ++ rs).take 10) := by
  induction ps with
  | nil =>
    intro a rs hlen h
    simp [appendAll, h, List.take_of_length_le hlen]
  | cons p ps ih =>
    intro a rs hlen h
    have h1 := (append_run_records p a rs h).1
    have hlen1 : (p.record :: rs.take 9).length ≤ 10 := by
      simp [List.length_take]
    have := ih (p.run a) (p.record :: rs.take 9) hlen1 h1
    simp only [appendAll, List.foldl_cons] at this ⊢
    rw [this]
    simp [take_append_cons_take]

theorem appendAll_snoc (ps : List Append) (p : Append) (a : App) :
    appendAll (ps ++ [p]) a = p.run (appendAll ps a) := by
  simp [appendAll, List.foldl_append]

theorem loadAll_json (a : App) (v : JsVal) (h : a.storage = some (.json v)) : loadAll a = v := by
  cases v <;>
    simp [loadAll, HistoryScreen.loadTranslations, HistoryScreen.loadTranslationsBody,
      App.getItem, h, parse, tryCatchLog, App.setTranslations, App.emit,
      HistoryScreen.renderLength]

theorem loadAll_absent (a : App) (h : a.storage = none) : loadAll a = .arr [] := by
  simp [loadAll, HistoryScreen.loadTranslations, HistoryScreen.loadTranslationsBody, App.getItem,
    h, tryCatchLog, HistoryState.initial]

theorem loadAll_congr (a b : App) (h : a.storage = b.storage) : loadAll a = loadAll b := by
  simp only [loadAll, HistoryScreen.loadTranslations, HistoryScreen.loadTranslationsBody,
    App.getItem, h, if_true]
  cases hb : b.storage with
  | none => simp [tryCatchLog]
  | some blob =>
    cases blob with
    | garbage raw => simp [tryCatchLog, parse, App.emit]
    | json v =>
      cases v <;>
        simp [tryCatchLog, parse, App.setTranslations, App.emit, HistoryScreen.renderLength]

theorem filterById_records (id : String) (rs : List TranslationRecord) :
    HistoryScreen.filterById id (rs.map TranslationRecord.toJs)
      = .ok ((rs.filter (fun r => r.id != id)).map TranslationRecord.toJs) := by
  induction rs with
  | nil => rfl
  | cons r rs ih =>
    have hp : getProp r.toJs "id" = .ok (.str r.id) := by
      simp [getProp, TranslationRecord.toJs, List.lookup]
    simp only [List.map_cons, HistoryScreen.filterById, hp, ih, List.filter_cons, strictNeStr]
    cases hne : (r.id != id) <;> simp [bind, Except.bind, pure, Except.pure] <;> simpa using hne

theorem deleteTranslation_records (id : String) (writeOk : Bool) (a : App)
    (rs : List TranslationRecord) (h : a.history.translations = historyOf rs) :
    HistoryScreen.deleteTranslation id writeOk a =
      if writeOk then
        { app := { a.setTranslations (historyOf (rs.filter (fun r => r.id != id))) with
                   storage := some (.json (historyOf (rs.filter (fun r => r.id != id)))) },
          escaped := none }
      else
        { app := (a.setTranslations (historyOf (rs.filter (fun r => r.id != id)))).emit
                   (.consoleError "Error deleting translation:" .storageError),
          escaped := none } := by
  cases writeOk <;>
    simp [HistoryScreen.deleteTranslation, HistoryScreen.deleteTranslationBody,
      HistoryScreen.filterTranslations, h, historyOf, filterById_records, stringify_records,
      tryCatchLog, App.setItem]

theorem boundedSeq_iff (v : JsVal) :
    boundedSeq v = true ↔ ∃ xs, v = .arr xs ∧ xs.length ≤ 10 := by
  cases v <;> simp [boundedSeq]

theorem boundedStore_stringify (xs : List JsVal) (h : xs.length ≤ 10) :
    boundedStore (some (stringify xs)) = true := by
  simp [boundedStore, stringify, boundedSeq, jsonifyElems_length, h]

theorem filterById_length (id : String) (xs : List JsVal) :
    ∀ ys, HistoryScreen.filterById id xs = .ok ys → ys.length ≤ xs.length := by
  induction xs with
  | nil =>
    intro ys h
    simp [HistoryScreen.filterById] at h
    subst h
    simp
  | cons x xs ih =>
    intro ys h
    simp only [HistoryScreen.filterById, bind, Except.bind, pure, Except.pure] at h
    cases hx : getProp x "id" with
    | error e => simp [hx] at h
    | ok i =>
      cases hr : HistoryScreen.filterById id xs with
      | error e => simp [hx, hr] at h
      | ok kept =>
        have hk := ih kept hr
        simp only [hx, hr] at h
        split at h
        · injection h with h; subst h; simp; omega
        · injection h with h; subst h; simp; omega

/-- The cap holds in the two in-memory sequences and in the store. -/
theorem op_run_bounded (op : Op) (a : App)
    (h : boundedSeq a.home.lastTranslations = true ∧ boundedSeq a.history.translations = true ∧
      boundedStore a.storage = true) :
    boundedSeq (op.run a).home.lastTranslations = true ∧
    boundedSeq (op.run a).history.translations = true ∧
    boundedStore (op.run a).storage = true := by
  obtain ⟨hhome, hhist, hstore⟩ := h
  obtain ⟨xs, hxs, hxlen⟩ := (boundedSeq_iff _).1 hhome
  obtain ⟨ys, hys, hylen⟩ := (boundedSeq_iff _).1 hhist
  cases op with
  | append clk writeOk src tgt original translated =>
    have hlen : (HomeScreen.newTranslation clk src tgt original translated
        :: xs.take 9).length ≤ 10 := by simp [List.length_take]
    simp only [Op.run, saveTranslation_arr clk writeOk src tgt original translated a xs hxs]
    cases writeOk
    · simpa [App.setLastTranslations, App.emit, boundedSeq, List.length_take]
        using And.intro hhist hstore
    · simpa [App.setLastTranslations, boundedSeq, List.length_take,
        boundedStore_stringify _ hlen] using hhist
  | remove id writeOk =>
    simp only [Op.run, HistoryScreen.deleteTranslation, HistoryScreen.deleteTranslationBody, hys,
      HistoryScreen.filterTranslations]
    cases hf : HistoryScreen.filterById id ys with
    | error e => simpa [tryCatchLog, App.emit] using ⟨hhome, by simpa [hys] using hhist, hstore⟩
    | ok zs =>
      have hz : zs.length ≤ 10 := le_trans (filterById_length id ys zs hf) hylen
      cases writeOk
      · simpa [tryCatchLog, App.setItem, App.setTranslations, App.emit, boundedSeq, hz]
          using And.intro hhome hstore
      · simpa [tryCatchLog, App.setItem, App.setTranslations, boundedSeq, hz,
          boundedStore_stringify _ hz] using hhome
  | clear confirmed removeOk =>
    have e0 : boundedSeq (.arr []) = true := rfl
    have s0 : boundedStore none = true := rfl
    cases confirmed <;> cases removeOk <;>
      simp [Op.run, HistoryScreen.clearAllHistory, HistoryScreen.clearConfirmed,
        HistoryScreen.clearConfirmedBody, App.removeItem, tryCatchLog, App.setTranslations,
        App.emit, hhome, hhist, hstore, e0, s0]
  | openHistory readOk =>
    have e0 : boundedSeq (.arr []) = true := rfl
    cases readOk
    · simp [Op.run, HistoryScreen.loadTranslations, HistoryScreen.loadTranslationsBody,
        App.getItem, tryCatchLog, App.emit, HistoryState.initial, hhome, hstore, e0]
    · cases hst : a.storage with
      | none =>
        have s0 : boundedStore none = true := rfl
        simp [Op.run, HistoryScreen.loadTranslations, HistoryScreen.loadTranslationsBody,
          App.getItem, tryCatchLog, HistoryState.initial, hhome, hst, e0, s0]
      | some blob =>
        rw [hst] at hstore
        cases blob with
        | garbage raw => simp [boundedStore] at hstore
        | json v =>
          have hv : boundedSeq v = true := by simpa [boundedStore] using hstore
          obtain ⟨zs, hzs, -⟩ := (boundedSeq_iff v).1 hv
          subst hzs
          simp [Op.run, HistoryScreen.loadTranslations, HistoryScreen.loadTranslationsBody,
            App.getItem, tryCatchLog, parse, App.setTranslations, hhome, hst, hstore, hv,
            HistoryScreen.renderLength]
  | loadHome readOk =>
    cases readOk
    · simp [Op.run, HomeScreen.loadLastTranslations, HomeScreen.loadLastTranslationsBody,
        App.getItem, tryCatchLog, App.emit, hhome, hhist, hstore]
    · cases hst : a.storage with
      | none =>
        have s0 : boundedStore none = true := rfl
        simp [Op.run, HomeScreen.loadLastTranslations, HomeScreen.loadLastTranslationsBody,
          App.getItem, tryCatchLog, hhome, hhist, hst, s0]
      | some blob =>
        rw [hst] at hstore
        cases blob with
        | garbage raw => simp [boundedStore] at hstore
        | json v =>
          have hv : boundedSeq v = true := by simpa [boundedStore] using hstore
          simp [Op.run, HomeScreen.loadLastTranslations, HomeScreen.loadLastTranslationsBody,
            App.getItem, tryCatchLog, parse, App.setLastTranslations, hhist, hst, hstore, hv]

theorem runOps_bounded (ops : List Op) :
    ∀ a : App, (boundedSeq a.home.lastTranslations = true ∧
      boundedSeq a.history.translations = true ∧ boundedStore a.storage = true) →
      boundedSeq (runOps ops a).home.lastTranslations = true ∧
      boundedSeq (runOps ops a).history.translations = true ∧
      boundedStore (runOps ops a).storage = true := by
  induction ops with
  | nil => intro a h; exact h
  | cons op ops ih =>
    intro a h
    exact ih (op.run a) (op_run_bounded op a h)

theorem digitVal_digitChar (d : Nat) (h : d < 10) : digitVal (digitChar d) = d := by
  interval_cases d <;> rfl

theorem digitChar_ne_minus (d : Nat) : digitChar d ≠ '-' := by
  unfold digitChar
  split <;> decide

theorem decimalValue_decimalChars (fuel : Nat) :
    ∀ n, n < fuel → decimalValue (decimalChars fuel n) = n := by
  induction fuel with
  | zero => intro n h; omega
  | succ fuel ih =>
    intro n h
    unfold decimalChars
    split
    · next hlt => simp [decimalValue, digitVal_digitChar n hlt]
    · next hge =>
      have hdiv : n / 10 < fuel := by omega
      simp only [decimalValue, ih (n / 10) hdiv, digitVal_digitChar (n % 10) (by omega)]
      omega

theorem minus_not_mem_decimalChars (fuel : Nat) : ∀ n, '-' ∉ decimalChars fuel n := by
  induction fuel with
  | zero => intro n; simp [decimalChars]
  | succ fuel ih =>
    intro n
    unfold decimalChars
    split
    · simpa using (digitChar_ne_minus n).symm
    · simpa using And.intro (digitChar_ne_minus (n % 10)).symm (ih (n / 10))

theorem decimalNat_injective (n m : Nat) (h : decimalNat n = decimalNat m) : n = m := by
  have hdata : (decimalChars (n + 1) n).reverse = (decimalChars (m + 1) m).reverse :=
    congrArg String.data h
  have hchars := List.reverse_injective hdata
  have hn := decimalValue_decimalChars (n + 1) n (by omega)
  have hm := decimalValue_decimalChars (m + 1) m (by omega)
  rw [hchars] at hn
  omega

theorem numberToString_injective (t u : Int) (h : numberToString t = numberToString u) :
    t = u := by
  unfold numberToString at h
  split at h <;> split at h
  · have hd : decimalNat t.natAbs = decimalNat u.natAbs := by
      have := congrArg String.data h
      simp at this
      exact String.ext this
    have := decimalNat_injective _ _ hd
    omega
  · exfalso
    have := congrArg String.data h
    simp only [decimalNat] at this
    have hmem : '-' ∈ (decimalChars (u.toNat + 1) u.toNat).reverse := by
      rw [← this]; simp
    exact minus_not_mem_decimalChars _ _ (List.mem_reverse.1 hmem)
  · exfalso
    have := congrArg String.data h
    simp only [decimalNat] at this
    have hmem : '-' ∈ (decimalChars (t.toNat + 1) t.toNat).reverse := by
      rw [this]; simp
    exact minus_not_mem_decimalChars _ _ (List.mem_reverse.1 hmem)
  · have := decimalNat_injective _ _ h
    omega

theorem lookup_id_jsonifyProps (s : String) (kvs : List (String × JsVal)) :
    kvs.lookup "id" = some (.str s) → (jsonifyProps kvs).lookup "id" = some (.str s) := by
  induction kvs with
  | nil => intro h; simp at h
  | cons kv kvs ih =>
    obtain ⟨k, v⟩ := kv
    intro h
    cases hk : ("id" == k) with
    | true =>
      have hv : v = .str s := by simpa [List.lookup, hk] using h
      subst hv
      simp [jsonifyProps, jsonify, List.lookup, hk]
    | false =>
      have ht : kvs.lookup "id" = some (.str s) := by simpa [List.lookup, hk] using h
      cases v <;> simp [jsonifyProps, List.lookup, hk, ih ht]

theorem entryId_jsonify (x : JsVal) (s : String) (h : entryId x = some s) :
    entryId (jsonify x) = some s := by
  cases x with
  | obj kvs =>
    have hl : kvs.lookup "id" = some (.str s) := by
      simp only [entryId] at h
      split at h
      · next t ht => simp at h; subst h; exact ht
      · simp at h
    simp [jsonify, entryId, lookup_id_jsonifyProps s kvs hl]
  | _ => simp [entryId] at h

theorem jsonifyElems_eq_map (xs : List JsVal) : jsonifyElems xs = xs.map jsonify := by
  induction xs with
  | nil => rfl
  | cons x xs ih => simp [jsonifyElems, ih]

theorem map_entryId_jsonifyElems (xs : List JsVal)
    (h : ∀ x ∈ xs, ∃ s, entryId x = some s) :
    (jsonifyElems xs).map entryId = xs.map entryId := by
  rw [jsonifyElems_eq_map, List.map_map]
  apply List.map_congr_left
  intro x hx
  obtain ⟨s, hs⟩ := h x hx
  simp [hs, entryId_jsonify x s hs]

theorem idsFrom_jsonified (ts : List Int) (xs : List JsVal) (h : IdsFrom ts (.arr xs)) :
    IdsFrom ts (.arr (jsonifyElems xs)) := by
  obtain ⟨ys, hys, hall, hnd⟩ := h
  injection hys with hys
  subst hys
  refine ⟨_, rfl, ?_, ?_⟩
  · intro y hy
    rw [jsonifyElems_eq_map] at hy
    obtain ⟨x, hx, rfl⟩ := List.mem_map.1 hy
    obtain ⟨t, ht, hid⟩ := hall x hx
    exact ⟨t, ht, entryId_jsonify x _ hid⟩
  · rw [map_entryId_jsonifyElems xs (fun x hx => (hall x hx).imp (fun _ h => h.2) |> fun ⟨t, h⟩ =>
      ⟨numberToString t, h⟩)]
    exact hnd

theorem idsFrom_sublist (ts : List Int) (xs ys : List JsVal) (h : IdsFrom ts (.arr xs))
    (hsub : ys.Sublist xs) : IdsFrom ts (.arr ys) := by
  obtain ⟨zs, hzs, hall, hnd⟩ := h
  injection hzs with hzs
  subst hzs
  exact ⟨ys, rfl, fun y hy => hall y (hsub.subset hy), hnd.sublist (hsub.map entryId)⟩

theorem idsFrom_mono (ts us : List Int) (v : JsVal) (h : IdsFrom ts v) (hsub : ts ⊆ us) :
    IdsFrom us v := by
  obtain ⟨xs, hxs, hall, hnd⟩ := h
  exact ⟨xs, hxs, fun x hx => (hall x hx).imp (fun _ ht => ⟨hsub ht.1, ht.2⟩), hnd⟩

theorem storeIdsFrom_mono (ts us : List Int) (s : Option Blob) (h : StoreIdsFrom ts s)
    (hsub : ts ⊆ us) : StoreIdsFrom us s := by
  rcases h with h | ⟨v, hv, hi⟩
  · exact Or.inl h
  · exact Or.inr ⟨v, hv, idsFrom_mono ts us v hi hsub⟩

theorem idsFrom_push (ts : List Int) (xs : List JsVal) (t : Int) (x : JsVal)
    (h : IdsFrom ts (.arr xs)) (hnew : t ∉ ts) (hx : entryId x = some (numberToString t)) :
    IdsFrom (t :: ts) (.arr (x :: xs.take 9)) := by
  have ht := idsFrom_sublist ts xs (xs.take 9) h (List.take_sublist 9 xs)
  obtain ⟨zs, hzs, hall, hnd⟩ := ht
  injection hzs with hzs
  subst hzs
  refine ⟨_, rfl, ?_, ?_⟩
  · intro y hy
    rcases List.mem_cons.1 hy with rfl | hy
    · exact ⟨t, List.mem_cons_self _ _, hx⟩
    · obtain ⟨u, hu, hid⟩ := hall y hy
      exact ⟨u, List.mem_cons_of_mem _ hu, hid⟩
  · rw [List.map_cons, List.nodup_cons]
    refine ⟨?_, hnd⟩
    intro hmem
    obtain ⟨y, hy, hyid⟩ := List.mem_map.1 hmem
    obtain ⟨u, hu, hid⟩ := hall y hy
    rw [hx, hid] at hyid
    have := numberToString_injective u t (Option.some.inj hyid)
    exact hnew (this ▸ hu)

theorem distinctIds_of_IdsFrom (ts : List Int) (v : JsVal) (h : IdsFrom ts v) :
    distinctIds v = true := by
  obtain ⟨xs, hxs, hall, hnd⟩ := h
  subst hxs
  simp only [distinctIds, Bool.and_eq_true, List.all_eq_true, decide_eq_true_eq]
  refine ⟨?_, hnd⟩
  intro o ho
  obtain ⟨x, hx, rfl⟩ := List.mem_map.1 ho
  obtain ⟨t, _, hid⟩ := hall x hx
  simp [hid]

theorem filterById_sublist (id : String) (xs : List JsVal) :
    ∀ ys, HistoryScreen.filterById id xs = .ok ys → ys.Sublist xs := by
  induction xs with
  | nil =>
    intro ys h
    simp [HistoryScreen.filterById] at h
    subst h
    exact List.Sublist.refl _
  | cons x xs ih =>
    intro ys h
    simp only [HistoryScreen.filterById, bind, Except.bind, pure, Except.pure] at h
    cases hx : getProp x "id" with
    | error e => simp [hx] at h
    | ok i =>
      cases hr : HistoryScreen.filterById id xs with
      | error e => simp [hx, hr] at h
      | ok kept =>
        have hk := ih kept hr
        simp only [hx, hr] at h
        split at h
        · injection h with h; subst h; exact hk.cons₂ x
        · injection h with h; subst h; exact hk.cons x

theorem entryId_newTranslation (clk : Clock) (src tgt original : String) (translated : JsVal) :
    entryId (HomeScreen.newTranslation clk src tgt original translated)
      = some (numberToString clk.nowMs) := by
  simp [entryId, HomeScreen.newTranslation, List.lookup]

theorem idsFrom_empty (ts : List Int) : IdsFrom ts (.arr []) :=
  ⟨[], rfl, by simp, by simp⟩

/-- The ids stay distinct under an operation whose clock reading, if it is an append, is new. -/
theorem op_run_ids (op : Op) (ts : List Int) (a : App) (h : AppIds ts a)
    (hnew : ∀ t ∈ appendTimes [op], t ∉ ts) : AppIds (appendTimes [op] ++ ts) (op.run a) := by
  obtain ⟨hhome, hhist, hstore⟩ := h
  cases op with
  | append clk writeOk src tgt original translated =>
    have hsub : ts ⊆ clk.nowMs :: ts := List.subset_cons_self _ _
    obtain ⟨xs, hxs, -⟩ := idsFrom_mono ts ts _ hhome (List.Subset.refl ts)
    rw [hxs] at hhome
    have hpush := idsFrom_push ts xs clk.nowMs _ hhome (hnew clk.nowMs (by simp [appendTimes]))
      (entryId_newTranslation clk src tgt original translated)
    simp only [Op.run, saveTranslation_arr clk writeOk src tgt original translated a xs hxs,
      appendTimes, List.singleton_append]
    cases writeOk
    · exact ⟨hpush, idsFrom_mono ts _ _ hhist hsub, storeIdsFrom_mono ts _ _ hstore hsub⟩
    · exact ⟨hpush, idsFrom_mono ts _ _ hhist hsub, Or.inr ⟨_, rfl, idsFrom_jsonified _ _ hpush⟩⟩
  | remove id writeOk =>
    obtain ⟨ys, hys, -⟩ := idsFrom_mono ts ts _ hhist (List.Subset.refl ts)
    rw [hys] at hhist
    simp only [Op.run, HistoryScreen.deleteTranslation, HistoryScreen.deleteTranslationBody, hys,
      HistoryScreen.filterTranslations, appendTimes, List.nil_append]
    cases hf : HistoryScreen.filterById id ys with
    | error e => exact ⟨hhome, by simpa [tryCatchLog, App.emit, hys, AppIds] using hhist, hstore⟩
    | ok zs =>
      have hz := idsFrom_sublist ts ys zs hhist (filterById_sublist id ys zs hf)
      cases writeOk
      · exact ⟨hhome, hz, hstore⟩
      · exact ⟨hhome, hz, Or.inr ⟨_, rfl, idsFrom_jsonified _ _ hz⟩⟩
  | clear confirmed removeOk =>
    cases confirmed <;> cases removeOk
    · exact ⟨hhome, hhist, hstore⟩
    · exact ⟨hhome, hhist, hstore⟩
    · exact ⟨hhome, hhist, hstore⟩
    · exact ⟨hhome, idsFrom_empty ts, Or.inl rfl⟩
  | openHistory readOk =>
    cases readOk
    · exact ⟨hhome, idsFrom_empty ts, hstore⟩
    · rcases hstore with hst | ⟨v, hst, hv⟩
      · have : (Op.openHistory true).run a = { a with history := HistoryState.initial } := by
          simp [Op.run, HistoryScreen.loadTranslations, HistoryScreen.loadTranslationsBody,
            App.getItem, tryCatchLog, hst]
        rw [this]
        exact ⟨hhome, idsFrom_empty ts, Or.inl hst⟩
      · have hlen : HistoryScreen.renderLength v = none := by
          obtain ⟨zs, hzs, -⟩ := hv
          rw [hzs]
          rfl
        have : (Op.openHistory true).run a = { a with history := { translations := v } } := by
          simp [Op.run, HistoryScreen.loadTranslations, HistoryScreen.loadTranslationsBody,
            App.getItem, tryCatchLog, hst, parse, App.setTranslations, hlen]
        rw [this]
        exact ⟨hhome, hv, Or.inr ⟨v, hst, hv⟩⟩
  | loadHome readOk =>
    cases readOk
    · exact ⟨hhome, hhist, hstore⟩
    · rcases hstore with hst | ⟨v, hst, hv⟩
      · have : (Op.loadHome true).run a = a := by
          simp [Op.run, HomeScreen.loadLastTranslations, HomeScreen.loadLastTranslationsBody,
            App.getItem, tryCatchLog, hst]
        rw [this]
        exact ⟨hhome, hhist, Or.inl hst⟩
      · have : (Op.loadHome true).run a = a.setLastTranslations v := by
          simp [Op.run, HomeScreen.loadLastTranslations, HomeScreen.loadLastTranslationsBody,
            App.getItem, tryCatchLog, hst, parse]
        rw [this]
        exact ⟨hv, hhist, Or.inr ⟨v, hst, hv⟩⟩

theorem appendTimes_cons (op : Op) (ops : List Op) :
    appendTimes (op :: ops) = appendTimes [op] ++ appendTimes ops := by
  cases op <;> simp [appendTimes]

theorem runOps_ids (ops : List Op) :
    ∀ (ts : List Int) (a : App), AppIds ts a → (appendTimes ops).Nodup →
      (∀ t ∈ appendTimes ops, t ∉ ts) → ∃ us, AppIds us (runOps ops a) := by
  induction ops with
  | nil => intro ts a h _ _; exact ⟨ts, h⟩
  | cons op ops ih =>
    intro ts a h hnd hnew
    rw [appendTimes_cons] at hnd hnew
    have hstep := op_run_ids op ts a h (fun t ht => hnew t (List.mem_append_left _ ht))
    refine ih (appendTimes [op] ++ ts) (op.run a) hstep (List.Nodup.of_append_right hnd) ?_
    intro t ht hmem
    rcases List.mem_append.1 hmem with hm | hm
    · exact (List.nodup_append.1 hnd).2.2 hm ht
    · exact hnew t (List.mem_append_right _ ht) hm

theorem translateText_error_response_log (data : JsVal) (kvs ekvs : List (String × JsVal))
    (m : String) (clk : Clock) (writeOk : Bool) (a : App)
    (hinput : a.home.inputText ≠ "")
    (hdata : data = .obj kvs) (herr : kvs.lookup "error" = some (.obj ekvs))
    (hmsg : ekvs.lookup "message" = some (.str m))
    (hnone : ∃ e, HomeScreen.firstTranslation data = .ok e ∧ truthy e = false) :
    (HomeScreen.translateText (.parsed data) clk writeOk a).app.log = a.log ++
      [.request a.home.inputText a.home.sourceLanguage a.home.targetLanguage "text",
       .consoleErrorVal "API Error:" (.str m),
       .consoleError "Translation error:" (.error (.str m)),
       .alert "Connection Error" connectionMessage ["OK"]] := by
  obtain ⟨e, he, hfalse⟩ := hnone
  have hbody : ∀ b : App, HomeScreen.handleResponse clk writeOk data b
      = (b.emit (.consoleErrorVal "API Error:" (.str m)), some (.error (.str m))) := by
    intro b
    unfold HomeScreen.handleResponse
    rw [he]
    simp only [hfalse, hdata, getProp, herr, hmsg, Option.getD_some]
    simp [truthy]
  simp [HomeScreen.translateText, HomeScreen.translateTextBody, hinput, hbody, App.emit,
    App.setIsLoading, connectionMessage]

theorem translateText_no_response_log (clk : Clock) (writeOk : Bool) (a : App)
    (hinput : a.home.inputText ≠ "") :
    (HomeScreen.translateText .noResponse clk writeOk a).app.log = a.log ++
      [.request a.home.inputText a.home.sourceLanguage a.home.targetLanguage "text",
       .consoleError "Translation error:" .networkError,
       .alert "Connection Error" connectionMessage ["OK"]] := by
  simp [HomeScreen.translateText, HomeScreen.translateTextBody, hinput, App.emit,
    App.setIsLoading, connectionMessage]

/-- An append on the home screen after a successful clear on the history screen works from the
list the home screen still holds: the records of that list come back. -/
theorem append_after_clear_keeps_cached (p : Append) (removeOk : Bool) (a : App)
    (h : List TranslationRecord) (hhome : a.home.lastTranslations = historyOf h) :
    (p.run (HistoryScreen.clearAllHistory true removeOk a).app).home.lastTranslations
      = historyOf (p.record :: h.take 9) ∧
    (p.writeOk = true →
      (p.run (HistoryScreen.clearAllHistory true removeOk a).app).storage
        = some (.json (historyOf (p.record :: h.take 9)))) := by
  have hc : (HistoryScreen.clearAllHistory true removeOk a).app.home.lastTranslations
      = historyOf h := by
    cases removeOk <;>
      simpa [HistoryScreen.clearAllHistory, HistoryScreen.clearConfirmed,
        HistoryScreen.clearConfirmedBody, App.removeItem, tryCatchLog, App.setTranslations,
        App.emit] using hhome
  have hr := append_run_records p _ h hc
  refine ⟨hr.1, ?_⟩
  intro hw
  rw [hr.2.1, hw, if_pos rfl]

/-! ## Appending beyond the cap -/

/-- C1: starting from an empty in-memory history, after more than ten appends run one after
another the in-memory sequence is the records of the ten most recent appends, most recent
first, and has length exactly ten; when the write of the last append succeeds the persisted
sequence is the same; after eleven appends the sequence is made of the ten later ones, so the
first-appended record has been dropped. -/
theorem saveTranslation_keeps_ten_most_recent (ps : List Append) (a : App)
    (hN : 10 < ps.length) (hempty : a.home.lastTranslations = .arr []) :
    (appendAll ps a).home.lastTranslations
      = historyOf ((ps.reverse.take 10).map Append.record) ∧
    ((ps.reverse.take 10).map Append.record).length = 10 ∧
    (∀ p, ps.getLast? = some p → p.writeOk = true →
      (appendAll ps a).storage
        = some (.json (historyOf ((ps.reverse.take 10).map Append.record))) ∧
      loadAll (appendAll ps a) = historyOf ((ps.reverse.take 10).map Append.record)) ∧
    (∀ p0 rest, ps = p0 :: rest → rest.length = 10 →
      (appendAll ps a).home.lastTranslations = historyOf (rest.reverse.map Append.record)) := by
  have hmem : ∀ qs : List Append, (appendAll qs a).home.lastTranslations
      = historyOf ((qs.reverse.take 10).map Append.record) := by
    intro qs
    have := appendAll_records qs a [] (by simp) (by simpa [historyOf] using hempty)
    simpa [List.map_reverse, List.map_take] using this
  refine ⟨hmem ps, by simp [List.length_take]; omega, ?_, ?_⟩
  · intro p hp hw
    obtain ⟨qs, rfl⟩ : ∃ qs, ps = qs ++ [p] := by
      rcases List.eq_nil_or_concat ps with h | ⟨qs, q, h⟩
      · subst h; simp at hp
      · subst h; simp at hp; subst hp; exact ⟨qs, by simp⟩
    have hst := (append_run_records p (appendAll qs a) _ (hmem qs)).2.1
    rw [hw, if_pos rfl] at hst
    have hm := hmem (qs ++ [p])
    rw [appendAll_snoc] at hm ⊢
    have hm1 := (append_run_records p (appendAll qs a) _ (hmem qs)).1
    rw [hm1] at hm
    rw [hm] at hst
    exact ⟨hst, loadAll_json _ _ hst⟩
  · intro p0 rest hps hlen
    rw [hmem ps, hps]
    congr 2
    rw [List.reverse_cons, List.take_append_of_le_length (by simp [hlen])]
    exact List.take_of_length_le (by simp [hlen])

/-- C1 at the scenario of the specification: eleven appends from the initial state. -/
theorem saveTranslation_keeps_ten_most_recent_witness :
    10 < elevenAppends.length ∧ App.initial.home.lastTranslations = .arr [] ∧
    (appendAll elevenAppends App.initial).home.lastTranslations
      = historyOf ((elevenAppends.reverse.take 10).map Append.record) ∧
    ((elevenAppends.reverse.take 10).map Append.record).length = 10 :=
  ⟨by decide, rfl,
    (saveTranslation_keeps_ten_most_recent elevenAppends App.initial (by decide) rfl).1,
    (saveTranslation_keeps_ten_most_recent elevenAppends App.initial (by decide) rfl).2.1⟩

/-! ## Round trip through the store -/

/-- C2: on any in-memory history, after an append whose write succeeds, `loadAll` yields a
sequence whose first element is the record the append stored (the id and timestamp read from
the clock, the languages and the two texts as given), which is also the first element of the
in-memory history; loading a second time, on a fresh mount or on the same screen, yields
the same sequence. -/
theorem saveTranslation_loadAll_round_trip (clk : Clock) (src tgt original translated : String)
    (a : App) (xs : List JsVal) (h : a.home.lastTranslations = .arr xs) :
    ∃ rest,
      loadAll (HomeScreen.saveTranslation clk true src tgt original (.str translated) a).app
        = .arr ((recordOf clk src tgt original translated).toJs :: rest) ∧
      (HomeScreen.saveTranslation clk true src tgt original
          (.str translated) a).app.home.lastTranslations
        = .arr ((recordOf clk src tgt original translated).toJs :: xs.take 9) ∧
      loadAll (HistoryScreen.loadTranslations true
          { (HomeScreen.saveTranslation clk true src tgt original (.str translated) a).app with
            history := HistoryState.initial }).app
        = .arr ((recordOf clk src tgt original translated).toJs :: rest) ∧
      (HistoryScreen.loadTranslations true
        (HistoryScreen.loadTranslations true
          { (HomeScreen.saveTranslation clk true src tgt original (.str translated) a).app with
            history := HistoryState.initial }).app).app.history.translations
        = .arr ((recordOf clk src tgt original translated).toJs :: rest) := by
  refine ⟨jsonifyElems (xs.take 9), ?_⟩
  rw [saveTranslation_arr clk true src tgt original (.str translated) a xs h]
  simp [loadAll, HistoryScreen.loadTranslations, HistoryScreen.loadTranslationsBody, App.getItem,
    parse, tryCatchLog, App.setTranslations, App.setLastTranslations, stringify, jsonifyElems,
    newTranslation_str, jsonify_toJs, HistoryScreen.renderLength]

/-- C2 at the scenario append on the initial state. -/
theorem saveTranslation_loadAll_round_trip_witness :
    App.initial.home.lastTranslations = .arr [] ∧
    ∃ rest,
      loadAll (HomeScreen.saveTranslation (sampleClock 0) true "en" "es" "hello"
          (.str "hola") App.initial).app
        = .arr ((recordOf (sampleClock 0) "en" "es" "hello" "hola").toJs :: rest) :=
  ⟨rfl, (saveTranslation_loadAll_round_trip (sampleClock 0) "en" "es" "hello" "hola"
    App.initial [] rfl).imp (fun _ hr => hr.1)⟩

/-! ## Deleting one entry -/

/-- C3: when no entry of the history carries the id, `deleteTranslation` leaves the in-memory
sequence as it was and lets no exception escape; the persisted sequence is the in-memory
sequence when the write succeeds and is untouched when the write fails, so a persisted
sequence that agreed with the in-memory one before the call is the same after it. -/
theorem deleteTranslation_absent_id_noop (id : String) (writeOk : Bool) (a : App)
    (rs : List TranslationRecord) (h : a.history.translations = historyOf rs)
    (hid : ∀ r ∈ rs, r.id ≠ id) :
    (HistoryScreen.deleteTranslation id writeOk a).app.history.translations = historyOf rs ∧
    (HistoryScreen.deleteTranslation id writeOk a).escaped = none ∧
    (writeOk = true → loadAll (HistoryScreen.deleteTranslation id writeOk a).app = historyOf rs) ∧
    (writeOk = false → (HistoryScreen.deleteTranslation id writeOk a).app.storage = a.storage) ∧
    (loadAll a = historyOf rs →
      loadAll (HistoryScreen.deleteTranslation id writeOk a).app = historyOf rs) ∧
    (HistoryScreen.deleteTranslation id writeOk a).app.home = a.home := by
  have hf : rs.filter (fun r => r.id != id) = rs := by
    rw [List.filter_eq_self]
    intro r hr
    simpa using hid r hr
  rw [deleteTranslation_records id writeOk a rs h, hf]
  cases writeOk
  · refine ⟨rfl, rfl, by simp, fun _ => rfl, ?_, rfl⟩
    intro hl
    rw [← hl]
    exact loadAll_congr _ _ rfl
  · refine ⟨rfl, rfl, fun _ => loadAll_json _ _ rfl, by simp, fun _ => loadAll_json _ _ rfl, rfl⟩

/-- C3 on the sample history, with an id no entry carries and a failing write. -/
theorem deleteTranslation_absent_id_noop_witness :
    sampleApp.history.translations = historyOf sampleHistory ∧
    (∀ r ∈ sampleHistory, r.id ≠ "42") ∧
    (HistoryScreen.deleteTranslation "42" false sampleApp).app.history.translations
      = historyOf sampleHistory ∧
    (HistoryScreen.deleteTranslation "42" false sampleApp).escaped = none :=
  ⟨rfl, by decide,
    (deleteTranslation_absent_id_noop "42" false sampleApp sampleHistory rfl (by decide)).1,
    (deleteTranslation_absent_id_noop "42" false sampleApp sampleHistory rfl (by decide)).2.1⟩

/-! ## Clearing the history -/

/-- C4: from any state, once the user has confirmed `clearAllHistory` and the removal has
succeeded, the key `translations` is absent from the store (not set to an empty array), the
in-memory sequence of the history screen is empty, no exception has escaped, and a following
load, on the same screen or on a fresh mount, gives the empty sequence. -/
theorem clearAllHistory_then_loadAll_empty (a : App) :
    (HistoryScreen.clearAllHistory true true a).app.storage = none ∧
    (HistoryScreen.clearAllHistory true true a).app.history.translations = .arr [] ∧
    (HistoryScreen.clearAllHistory true true a).escaped = none ∧
    loadAll (HistoryScreen.clearAllHistory true true a).app = .arr [] ∧
    (HistoryScreen.loadTranslations true
      (HistoryScreen.clearAllHistory true true a).app).app.history.translations = .arr [] := by
  simp [HistoryScreen.clearAllHistory, HistoryScreen.clearConfirmed,
    HistoryScreen.clearConfirmedBody, App.removeItem, tryCatchLog, App.setTranslations, App.emit,
    loadAll, HistoryScreen.loadTranslations, HistoryScreen.loadTranslationsBody, App.getItem,
    HistoryState.initial]

/-! ## The translation request -/

/-- C5: when the input is not empty and the parsed response carries an error object with
the string message `m` and no truthy first translation entry, the `try` block of
`translateText` raises `new Error(m)`, which is logged; the displayed translation, both
in-memory histories and the store are left as they were, so no record is appended, and
nothing escapes the function. -/
theorem translateText_api_error (data : JsVal) (kvs ekvs : List (String × JsVal)) (m : String)
    (clk : Clock) (writeOk : Bool) (a : App)
    (hinput : a.home.inputText ≠ "")
    (hdata : data = .obj kvs) (herr : kvs.lookup "error" = some (.obj ekvs))
    (hmsg : ekvs.lookup "message" = some (.str m))
    (hnone : ∃ e, HomeScreen.firstTranslation data = .ok e ∧ truthy e = false) :
    (HomeScreen.translateTextBody (.parsed data) clk writeOk (a.setIsLoading true)).2
      = some (.error (.str m)) ∧
    (HomeScreen.translateText (.parsed data) clk writeOk a).escaped = none ∧
    (HomeScreen.translateText (.parsed data) clk writeOk a).app.home.translatedText
      = a.home.translatedText ∧
    (HomeScreen.translateText (.parsed data) clk writeOk a).app.home.lastTranslations
      = a.home.lastTranslations ∧
    (HomeScreen.translateText (.parsed data) clk writeOk a).app.history = a.history ∧
    (HomeScreen.translateText (.parsed data) clk writeOk a).app.storage = a.storage ∧
    (HomeScreen.translateText (.parsed data) clk writeOk a).app.log = a.log ++
      [.request a.home.inputText a.home.sourceLanguage a.home.targetLanguage "text",
       .consoleErrorVal "API Error:" (.str m),
       .consoleError "Translation error:" (.error (.str m)),
       .alert "Connection Error"
         "Could not connect to translation service. Please check your internet connection and try again."
         ["OK"]] := by
  obtain ⟨e, he, hfalse⟩ := hnone
  have hbody : ∀ b : App, HomeScreen.handleResponse clk writeOk data b
      = (b.emit (.consoleErrorVal "API Error:" (.str m)), some (.error (.str m))) := by
    intro b
    unfold HomeScreen.handleResponse
    rw [he]
    simp only [hfalse, hdata, getProp, herr, hmsg, Option.getD_some]
    simp [truthy]
  simp [HomeScreen.translateText, HomeScreen.translateTextBody, hinput, hbody, App.emit,
    App.setIsLoading]

/-- C5 at the scenario of the specification: the response with message `Invalid Value`. -/
theorem translateText_api_error_witness :
    typingApp.home.inputText ≠ "" ∧
    (HomeScreen.translateTextBody (.parsed invalidValueResponse) (sampleClock 0) true
      (typingApp.setIsLoading true)).2 = some (.error (.str "Invalid Value")) ∧
    (HomeScreen.translateText (.parsed invalidValueResponse) (sampleClock 0) true
      typingApp).app.home.lastTranslations = typingApp.home.lastTranslations :=
  ⟨by decide,
    (translateText_api_error invalidValueResponse _ _ "Invalid Value" (sampleClock 0) true
      typingApp (by decide) rfl rfl rfl ⟨.undefined, rfl, rfl⟩).1,
    (translateText_api_error invalidValueResponse _ _ "Invalid Value" (sampleClock 0) true
      typingApp (by decide) rfl rfl rfl ⟨.undefined, rfl, rfl⟩).2.2.2.1⟩

/-- C6, as stated, fails: the translations array of `nullEntryResponse` has one entry, yet
the `try` block of `translateText` raises the unexpected-format error, the displayed
translation stays as it was and nothing is appended. -/
theorem translateText_null_entry_counterexample :
    getProp nullEntryResponse "data" = .ok (.obj [("translations", .arr [.null])]) ∧
    (HomeScreen.translateTextBody (.parsed nullEntryResponse) (sampleClock 0) true
      (typingApp.setIsLoading true)).2
      = some (.error (.str "Unexpected API response format")) ∧
    (HomeScreen.translateText (.parsed nullEntryResponse) (sampleClock 0) true
      typingApp).app.home.translatedText = typingApp.home.translatedText ∧
    (HomeScreen.translateText (.parsed nullEntryResponse) (sampleClock 0) true
      typingApp).app.home.lastTranslations = .arr [] ∧
    (HomeScreen.translateText (.parsed nullEntryResponse) (sampleClock 0) true
      typingApp).app.storage = none := by
  refine ⟨rfl, rfl, rfl, rfl, rfl⟩

/-- C6, amended: when the input is not empty, the in-memory history is an array and the first
entry of the translations array of the parsed response is truthy, the `try` block of
`translateText` raises nothing and no alert is shown; the displayed translation becomes the
value of the `translatedText` property of that entry, unchanged (the very string `s` when the
property holds a string `s`), whatever else the body contains; the record prepended to the
in-memory history carries that same value as `translatedText`, and the store holds the new
history when the write succeeds. -/
theorem translateText_first_entry_verbatim (data entry : JsVal) (kvs dkvs : List (String × JsVal))
    (rest xs : List JsVal) (clk : Clock) (writeOk : Bool) (a : App)
    (hinput : a.home.inputText ≠ "")
    (hmem : a.home.lastTranslations = .arr xs)
    (hdata : data = .obj kvs) (hd : kvs.lookup "data" = some (.obj dkvs))
    (hts : dkvs.lookup "translations" = some (.arr (entry :: rest)))
    (htruthy : truthy entry = true) :
    ∃ t, getProp entry "translatedText" = .ok t ∧
      (∀ ekvs s, entry = .obj ekvs → ekvs.lookup "translatedText" = some (.str s) → t = .str s) ∧
      (HomeScreen.translateTextBody (.parsed data) clk writeOk (a.setIsLoading true)).2 = none ∧
      (HomeScreen.translateText (.parsed data) clk writeOk a).escaped = none ∧
      (HomeScreen.translateText (.parsed data) clk writeOk a).app.home.translatedText = t ∧
      (HomeScreen.translateText (.parsed data) clk writeOk a).app.home.lastTranslations
        = .arr (HomeScreen.newTranslation clk a.home.sourceLanguage a.home.targetLanguage
            a.home.inputText t :: xs.take 9) ∧
      (writeOk = true → (HomeScreen.translateText (.parsed data) clk writeOk a).app.storage
        = some (stringify (HomeScreen.newTranslation clk a.home.sourceLanguage
            a.home.targetLanguage a.home.inputText t :: xs.take 9))) ∧
      (∀ title message buttons, Event.alert title message buttons ∉
        (HomeScreen.translateText (.parsed data) clk writeOk a).app.log.drop a.log.length) := by
  have hfirst : HomeScreen.firstTranslation data = .ok entry := by
    simp [HomeScreen.firstTranslation, hdata, getProp, hd, hts, jsAnd, truthy, getIndex0,
      bind, Except.bind]
  obtain ⟨t, ht⟩ : ∃ t, getProp entry "translatedText" = .ok t := by
    cases entry <;> simp [getProp, truthy] at htruthy ⊢
  refine ⟨t, ht, ?_, ?_⟩
  · intro ekvs s he hs
    subst he
    simpa [getProp, hs] using ht.symm
  · have hbody : ∀ b : App, HomeScreen.handleResponse clk writeOk data b
          = ((HomeScreen.saveTranslation clk writeOk b.home.sourceLanguage b.home.targetLanguage
              b.home.inputText t (b.setTranslatedText t)).app, none) := by
      intro b
      unfold HomeScreen.handleResponse
      rw [hfirst]
      simp only [htruthy, if_true, ht]
    have hT : HomeScreen.translateTextBody (.parsed data) clk writeOk (a.setIsLoading true)
        = ((HomeScreen.saveTranslation clk writeOk a.home.sourceLanguage a.home.targetLanguage
              a.home.inputText t
              (((a.setIsLoading true).emit (.request a.home.inputText a.home.sourceLanguage
                a.home.targetLanguage "text")).setTranslatedText t)).app, none) := by
      unfold HomeScreen.translateTextBody
      simp only [hbody]
      rfl
    have hS := saveTranslation_arr clk writeOk a.home.sourceLanguage a.home.targetLanguage
      a.home.inputText t
      (((a.setIsLoading true).emit (.request a.home.inputText a.home.sourceLanguage
        a.home.targetLanguage "text")).setTranslatedText t) xs hmem
    have hO : HomeScreen.translateText (.parsed data) clk writeOk a
        = { app := (HomeScreen.saveTranslation clk writeOk a.home.sourceLanguage
              a.home.targetLanguage a.home.inputText t
              (((a.setIsLoading true).emit (.request a.home.inputText a.home.sourceLanguage
                a.home.targetLanguage "text")).setTranslatedText t)).app.setIsLoading false,
            escaped := none } := by
      unfold HomeScreen.translateText
      rw [if_neg hinput]
      simp only [hT]
    rw [hT, hO, hS]
    cases writeOk <;>
      simp [App.emit, App.setIsLoading, App.setTranslatedText, App.setLastTranslations]

/-- C6, amended, on a success response that also carries an error object: the translated
text is kept with its surrounding blanks. -/
theorem translateText_first_entry_verbatim_witness :
    typingApp.home.inputText ≠ "" ∧
    truthy (.obj [("translatedText", .str " hola ")]) = true ∧
    ∃ t, getProp (.obj [("translatedText", .str " hola ")]) "translatedText" = .ok t ∧
      (∀ ekvs s, JsVal.obj [("translatedText", .str " hola ")] = .obj ekvs →
        ekvs.lookup "translatedText" = some (.str s) → t = .str s) ∧
      (HomeScreen.translateTextBody (.parsed holaResponse) (sampleClock 0) true
        (typingApp.setIsLoading true)).2 = none :=
  ⟨by decide, rfl,
    (translateText_first_entry_verbatim holaResponse _ _ _ [] [] (sampleClock 0) true typingApp
      (by decide) rfl rfl rfl rfl rfl).imp (fun _ ht => ⟨ht.1, ht.2.1, ht.2.2.1⟩)⟩

/-! ## Invariants of reachable states -/

/-- C7: in every state reached from the initial application (empty history, nothing stored) by
a finite sequence of appends, removals, clears and screen loads, whatever the environment
does, the in-memory sequence of each screen is an array of at most ten entries and the store
is absent or holds an array of at most ten entries. -/
theorem reachable_length_at_most_ten (ops : List Op) :
    boundedSeq (runOps ops App.initial).home.lastTranslations = true ∧
    boundedSeq (runOps ops App.initial).history.translations = true ∧
    boundedStore (runOps ops App.initial).storage = true :=
  runOps_bounded ops App.initial ⟨rfl, rfl, rfl⟩

/-- C8, as stated, fails: two appends that read the same millisecond from the clock give two
entries with the same id, in memory and in the store. -/
theorem same_millisecond_ids_counterexample :
    (runOps sameMillisecondOps App.initial).home.lastTranslations
      = historyOf [recordOf (sampleClock 0) "en" "fr" "hello" "bonjour",
                   recordOf (sampleClock 0) "en" "es" "hello" "hola"] ∧
    (recordOf (sampleClock 0) "en" "fr" "hello" "bonjour").id
      = (recordOf (sampleClock 0) "en" "es" "hello" "hola").id ∧
    distinctIds (runOps sameMillisecondOps App.initial).home.lastTranslations = false ∧
    distinctIdsStore (runOps sameMillisecondOps App.initial).storage = false := by
  refine ⟨rfl, rfl, ?_, ?_⟩ <;> decide

/-- C8, amended: when the clock readings `Date.now()` of the appends are pairwise distinct, in
every state reached from the initial application by a finite sequence of appends, removals,
clears and screen loads the entries of each in-memory sequence and of the stored sequence all
carry a string id and no two entries of a sequence carry the same id. -/
theorem reachable_ids_distinct (ops : List Op) (hclock : (appendTimes ops).Nodup) :
    distinctIds (runOps ops App.initial).home.lastTranslations = true ∧
    distinctIds (runOps ops App.initial).history.translations = true ∧
    distinctIdsStore (runOps ops App.initial).storage = true := by
  obtain ⟨us, hhome, hhist, hstore⟩ := runOps_ids ops [] App.initial
    ⟨idsFrom_empty [], idsFrom_empty [], Or.inl rfl⟩ hclock (by simp)
  refine ⟨distinctIds_of_IdsFrom us _ hhome, distinctIds_of_IdsFrom us _ hhist, ?_⟩
  rcases hstore with hst | ⟨v, hst, hv⟩
  · rw [hst]; rfl
  · rw [hst]; exact distinctIds_of_IdsFrom us v hv

/-- C8, amended, on a session whose two appends read different milliseconds. -/
theorem reachable_ids_distinct_witness :
    (appendTimes sampleSession).Nodup ∧
    distinctIds (runOps sampleSession App.initial).home.lastTranslations = true :=
  ⟨by decide, (reachable_ids_distinct sampleSession (by decide)).1⟩

/-! ## Removal keeps the other entries -/

/-- C9: on any history and for any id, `deleteTranslation` leaves in memory exactly the
entries whose id differs from the given one, in their original order, so no entry with that
id remains; the store holds the same sequence when the write succeeds; a second
`deleteTranslation` with the same id leaves the in-memory sequence as the first one left it,
and leaves the persisted sequence as it was when the first write succeeded. -/
theorem deleteTranslation_filters_and_idempotent (id : String) (w1 w2 : Bool) (a : App)
    (rs : List TranslationRecord) (h : a.history.translations = historyOf rs) :
    (HistoryScreen.deleteTranslation id w1 a).app.history.translations
      = historyOf (rs.filter (fun r => r.id != id)) ∧
    (rs.filter (fun r => r.id != id)).Sublist rs ∧
    (∀ r ∈ rs.filter (fun r => r.id != id), r.id ≠ id) ∧
    (∀ r ∈ rs, r.id ≠ id → r ∈ rs.filter (fun r => r.id != id)) ∧
    (w1 = true → loadAll (HistoryScreen.deleteTranslation id w1 a).app
      = historyOf (rs.filter (fun r => r.id != id))) ∧
    (HistoryScreen.deleteTranslation id w2
        (HistoryScreen.deleteTranslation id w1 a).app).app.history.translations
      = (HistoryScreen.deleteTranslation id w1 a).app.history.translations ∧
    (w1 = true → loadAll (HistoryScreen.deleteTranslation id w2
        (HistoryScreen.deleteTranslation id w1 a).app).app
      = loadAll (HistoryScreen.deleteTranslation id w1 a).app) := by
  have h1 := deleteTranslation_records id w1 a rs h
  have hmem1 : (HistoryScreen.deleteTranslation id w1 a).app.history.translations
      = historyOf (rs.filter (fun r => r.id != id)) := by
    rw [h1]; cases w1 <;> rfl
  have h2 := deleteTranslation_records id w2 (HistoryScreen.deleteTranslation id w1 a).app
    (rs.filter (fun r => r.id != id)) hmem1
  rw [List.filter_filter] at h2
  simp only [Bool.and_self] at h2
  have hload1 : w1 = true → loadAll (HistoryScreen.deleteTranslation id w1 a).app
      = historyOf (rs.filter (fun r => r.id != id)) := by
    intro hw
    subst hw
    rw [h1]
    exact loadAll_json _ _ rfl
  refine ⟨hmem1, List.filter_sublist rs, ?_, ?_, hload1, ?_, ?_⟩
  · intro r hr
    simpa using (List.mem_filter.1 hr).2
  · intro r hr hne
    exact List.mem_filter.2 ⟨hr, by simpa using hne⟩
  · rw [h2, hmem1]; cases w2 <;> rfl
  · intro hw
    rw [hload1 hw, h2]
    cases w2
    · subst hw
      rw [← hload1 rfl]
      exact loadAll_congr _ _ rfl
    · exact loadAll_json _ _ rfl

/-- C9 on the sample history: removing the older entry, twice. -/
theorem deleteTranslation_filters_and_idempotent_witness :
    sampleApp.history.translations = historyOf sampleHistory ∧
    (HistoryScreen.deleteTranslation "1700000000000" true sampleApp).app.history.translations
      = historyOf (sampleHistory.filter (fun r => r.id != "1700000000000")) ∧
    sampleHistory.filter (fun r => r.id != "1700000000000") = [worldRecord] :=
  ⟨rfl,
    (deleteTranslation_filters_and_idempotent "1700000000000" true true sampleApp sampleHistory
      rfl).1,
    by decide⟩

/-! ## Failing writes -/

/-- C10, as stated, fails: when the write of an append on the initial application fails, the
store still holds the prior value (the key is absent) but the in-memory sequence already
holds the new record, so neither of the two outcomes of the claim is the case. -/
theorem saveTranslation_failed_write_counterexample :
    (HomeScreen.saveTranslation (sampleClock 0) false "en" "es" "hello" (.str "hola")
      App.initial).app.storage = none ∧
    (HomeScreen.saveTranslation (sampleClock 0) false "en" "es" "hello" (.str "hola")
      App.initial).app.home.lastTranslations
      = historyOf [recordOf (sampleClock 0) "en" "es" "hello" "hola"] ∧
    ¬ (((HomeScreen.saveTranslation (sampleClock 0) false "en" "es" "hello" (.str "hola")
          App.initial).app.home.lastTranslations
          = historyOf [recordOf (sampleClock 0) "en" "es" "hello" "hola"] ∧
        (HomeScreen.saveTranslation (sampleClock 0) false "en" "es" "hello" (.str "hola")
          App.initial).app.storage
          = some (.json (historyOf [recordOf (sampleClock 0) "en" "es" "hello" "hola"]))) ∨
       ((HomeScreen.saveTranslation (sampleClock 0) false "en" "es" "hello" (.str "hola")
          App.initial).app.home.lastTranslations = App.initial.home.lastTranslations ∧
        (HomeScreen.saveTranslation (sampleClock 0) false "en" "es" "hello" (.str "hola")
          App.initial).app.storage = App.initial.storage)) := by
  have hs := saveTranslation_arr (sampleClock 0) false "en" "es" "hello" (.str "hola")
    App.initial [] rfl
  refine ⟨by rw [hs]; rfl, by rw [hs]; rfl, ?_⟩
  rw [hs]
  rintro (⟨-, h⟩ | ⟨h, -⟩)
  · simp [App.setLastTranslations, App.emit, App.initial] at h
  · simp [App.setLastTranslations, App.emit, App.initial, HomeState.initial] at h

/-- C10, amended: no exception escapes `saveTranslation`, `deleteTranslation` or the
confirmed `clearAllHistory`. When the storage call succeeds, the in-memory sequence and the
store both hold the new value. When it fails, the store still holds the prior value; the
in-memory sequence still holds the prior value for `clearAllHistory`, and already holds the
new value for `saveTranslation` and `deleteTranslation`, which update it before writing. -/
theorem mutation_outcomes (clk : Clock) (src tgt original translated id : String) (ok : Bool)
    (a : App) (rs hs : List TranslationRecord)
    (hhome : a.home.lastTranslations = historyOf rs)
    (hhist : a.history.translations = historyOf hs) :
    ((HomeScreen.saveTranslation clk ok src tgt original (.str translated) a).escaped = none ∧
      (HomeScreen.saveTranslation clk ok src tgt original (.str translated)
        a).app.home.lastTranslations
        = historyOf (recordOf clk src tgt original translated :: rs.take 9) ∧
      (HomeScreen.saveTranslation clk ok src tgt original (.str translated) a).app.storage
        = if ok then some (.json (historyOf (recordOf clk src tgt original translated
            :: rs.take 9)))
          else a.storage) ∧
    ((HistoryScreen.deleteTranslation id ok a).escaped = none ∧
      (HistoryScreen.deleteTranslation id ok a).app.history.translations
        = historyOf (hs.filter (fun r => r.id != id)) ∧
      (HistoryScreen.deleteTranslation id ok a).app.storage
        = if ok then some (.json (historyOf (hs.filter (fun r => r.id != id))))
          else a.storage) ∧
    ((HistoryScreen.clearAllHistory true ok a).escaped = none ∧
      (HistoryScreen.clearAllHistory true ok a).app.history.translations
        = (if ok then .arr [] else a.history.translations) ∧
      (HistoryScreen.clearAllHistory true ok a).app.storage
        = if ok then none else a.storage) := by
  have hsave := saveTranslation_arr clk ok src tgt original (.str translated) a
    (rs.map TranslationRecord.toJs) hhome
  have hrec : HomeScreen.newTranslation clk src tgt original (.str translated)
      :: List.take 9 (rs.map TranslationRecord.toJs)
      = (recordOf clk src tgt original translated :: rs.take 9).map TranslationRecord.toJs := by
    simp [newTranslation_str, List.map_take]
  rw [hrec, stringify_records] at hsave
  have hdel := deleteTranslation_records id ok a hs hhist
  rw [hsave, hdel]
  cases ok <;>
    simp [historyOf, App.setLastTranslations, App.setTranslations, App.emit,
      HistoryScreen.clearAllHistory, HistoryScreen.clearConfirmed,
      HistoryScreen.clearConfirmedBody, App.removeItem, tryCatchLog]

/-- C10, amended, on the sample application with a failing storage call. -/
theorem mutation_outcomes_witness :
    sampleApp.home.lastTranslations = historyOf sampleHistory ∧
    sampleApp.history.translations = historyOf sampleHistory ∧
    (HistoryScreen.deleteTranslation "1700000000000" false sampleApp).escaped = none ∧
    (HistoryScreen.deleteTranslation "1700000000000" false sampleApp).app.storage
      = (if false then some (.json (historyOf (sampleHistory.filter
          (fun r => r.id != "1700000000000")))) else sampleApp.storage) :=
  ⟨rfl, rfl,
    (mutation_outcomes (sampleClock 2) "en" "de" "tree" "Baum" "1700000000000" false sampleApp
      sampleHistory sampleHistory rfl rfl).2.1.1,
    (mutation_outcomes (sampleClock 2) "en" "de" "tree" "Baum" "1700000000000" false sampleApp
      sampleHistory sampleHistory rfl rfl).2.1.2.2⟩

/-! ## The alert of a failed translation -/

/-- C11, as stated, fails: for the error response with message `Invalid Value` the only message
shown to the user is the connection message, in which `Invalid Value` does not occur, and it
is the very message shown when no response is obtained. -/
theorem translateText_alert_counterexample :
    surfaced (.parsed invalidValueResponse) (sampleClock 0) true typingApp
      = [connectionMessage] ∧
    surfaced .noResponse (sampleClock 0) true typingApp = [connectionMessage] ∧
    ¬ occursIn "Invalid Value" connectionMessage := by
  refine ⟨rfl, rfl, ?_⟩
  intro h
  have hV : 'V' ∈ connectionMessage.data :=
    h.subset (by simp)
  revert hV
  set_option maxRecDepth 4000 in decide

/-- C11, amended: for an error response with the string message `m` (and no truthy first
translation entry, the input not being empty), `translateText` writes `m` to the console,
once on its own and once inside the caught error, and shows the user one message, the
connection message, whatever `m` is; that is the same message it shows when no response is
obtained, where the console receives the network failure instead. -/
theorem translateText_alert_generic (data : JsVal) (kvs ekvs : List (String × JsVal))
    (m : String) (clk : Clock) (writeOk : Bool) (a : App)
    (hinput : a.home.inputText ≠ "")
    (hdata : data = .obj kvs) (herr : kvs.lookup "error" = some (.obj ekvs))
    (hmsg : ekvs.lookup "message" = some (.str m))
    (hnone : ∃ e, HomeScreen.firstTranslation data = .ok e ∧ truthy e = false) :
    surfaced (.parsed data) clk writeOk a = [connectionMessage] ∧
    surfaced .noResponse clk writeOk a = [connectionMessage] ∧
    (HomeScreen.translateText (.parsed data) clk writeOk a).app.log.drop a.log.length
      = [.request a.home.inputText a.home.sourceLanguage a.home.targetLanguage "text",
         .consoleErrorVal "API Error:" (.str m),
         .consoleError "Translation error:" (.error (.str m)),
         .alert "Connection Error" connectionMessage ["OK"]] ∧
    (HomeScreen.translateText .noResponse clk writeOk a).app.log.drop a.log.length
      = [.request a.home.inputText a.home.sourceLanguage a.home.targetLanguage "text",
         .consoleError "Translation error:" .networkError,
         .alert "Connection Error" connectionMessage ["OK"]] := by
  have h1 := translateText_error_response_log data kvs ekvs m clk writeOk a hinput hdata herr
    hmsg hnone
  have h2 := translateText_no_response_log clk writeOk a hinput
  refine ⟨?_, ?_, ?_, ?_⟩
  · simp [surfaced, h1, alertMessages]
  · simp [surfaced, h2, alertMessages]
  · simp [h1]
  · simp [h2]

/-- C11, amended, at the error response with message `Invalid Value`. -/
theorem translateText_alert_generic_witness :
    typingApp.home.inputText ≠ "" ∧
    surfaced (.parsed invalidValueResponse) (sampleClock 0) true typingApp
      = [connectionMessage] ∧
    surfaced .noResponse (sampleClock 0) true typingApp = [connectionMessage] :=
  ⟨by decide,
    (translateText_alert_generic invalidValueResponse _ _ "Invalid Value" (sampleClock 0) true
      typingApp (by decide) rfl rfl rfl ⟨.undefined, rfl, rfl⟩).1,
    (translateText_alert_generic invalidValueResponse _ _ "Invalid Value" (sampleClock 0) true
      typingApp (by decide) rfl rfl rfl ⟨.undefined, rfl, rfl⟩).2.1⟩

/-! ## Loading a corrupt store -/

/-- C12, as stated, fails: when the store holds the JSON text of an object, neither
`loadTranslations` nor `loadLastTranslations` fails; each replaces the in-memory sequence
(empty before) by the object and logs nothing. -/
theorem load_object_counterexample :
    (HistoryScreen.loadTranslationsBody true objectStoreApp).2 = none ∧
    (HistoryScreen.loadTranslations true objectStoreApp).app.history.translations
      = .obj [("version", .num 2)] ∧
    (HistoryScreen.loadTranslations true objectStoreApp).app.log = [] ∧
    objectStoreApp.history.translations = .arr [] ∧
    (HomeScreen.loadLastTranslationsBody true objectStoreApp).2 = none ∧
    (HomeScreen.loadLastTranslations true objectStoreApp).app.home.lastTranslations
      = .obj [("version", .num 2)] ∧
    objectStoreApp.home.lastTranslations = .arr [] ∧
    JsVal.obj [("version", .num 2)] ≠ .arr [] := by
  refine ⟨rfl, rfl, rfl, rfl, rfl, rfl, rfl, ?_⟩
  intro h
  cases h

/-- C12, amended: when the stored string is present but is not a JSON text, the `try` block
of `loadTranslations` and of `loadLastTranslations` raises a `SyntaxError`, which is caught
and logged, nothing escapes, and the in-memory sequence is left as it was; when the key is
absent both functions leave the application as it was, and the result of `loadAll` is the
empty sequence. -/
theorem load_rejects_invalid_json (a : App) :
    (∀ raw, a.storage = some (.garbage raw) →
      (HistoryScreen.loadTranslationsBody true a).2 = some .syntaxError ∧
      (HistoryScreen.loadTranslations true a).app.history.translations
        = a.history.translations ∧
      (HistoryScreen.loadTranslations true a).app.log
        = a.log ++ [.consoleError "Error loading translations:" .syntaxError] ∧
      (HistoryScreen.loadTranslations true a).escaped = none ∧
      (HomeScreen.loadLastTranslationsBody true a).2 = some .syntaxError ∧
      (HomeScreen.loadLastTranslations true a).app.home.lastTranslations
        = a.home.lastTranslations ∧
      (HomeScreen.loadLastTranslations true a).app.log
        = a.log ++ [.consoleError "Error loading translations:" .syntaxError] ∧
      (HomeScreen.loadLastTranslations true a).escaped = none ∧
      loadAll a = .arr []) ∧
    (a.storage = none →
      (HistoryScreen.loadTranslations true a).app = a ∧
      (HistoryScreen.loadTranslations true a).escaped = none ∧
      (HomeScreen.loadLastTranslations true a).app = a ∧
      (HomeScreen.loadLastTranslations true a).escaped = none ∧
      loadAll a = .arr []) := by
  refine ⟨?_, ?_⟩
  · intro raw h
    simp [HistoryScreen.loadTranslations, HistoryScreen.loadTranslationsBody,
      HomeScreen.loadLastTranslations, HomeScreen.loadLastTranslationsBody, App.getItem, h, parse,
      tryCatchLog, App.emit, loadAll, HistoryState.initial]
  · intro h
    simp [HistoryScreen.loadTranslations, HistoryScreen.loadTranslationsBody,
      HomeScreen.loadLastTranslations, HomeScreen.loadLastTranslationsBody, App.getItem, h,
      tryCatchLog, loadAll, HistoryState.initial]

/-- C12, amended, on a store that holds a string that is not a JSON text. -/
theorem load_rejects_invalid_json_witness :
    garbageStoreApp.storage = some (.garbage "[oops") ∧
    (HistoryScreen.loadTranslationsBody true garbageStoreApp).2 = some .syntaxError ∧
    (HistoryScreen.loadTranslations true garbageStoreApp).app.history.translations
      = garbageStoreApp.history.translations :=
  ⟨rfl, ((load_rejects_invalid_json garbageStoreApp).1 "[oops" rfl).1,
    ((load_rejects_invalid_json garbageStoreApp).1 "[oops" rfl).2.1⟩

/-! ## Empty input -/

/-- C13: when the input text is empty, whatever the languages, the rest of the state and the
environment, `translateText` returns the application as it was: no request is issued, no
alert is shown, nothing is logged, and the displayed translation, the loading flag, both
histories and the store are unchanged. -/
theorem translateText_empty_input (net : HomeScreen.FetchResult) (clk : Clock) (writeOk : Bool)
    (a : App) (hempty : a.home.inputText = "") :
    HomeScreen.translateText net clk writeOk a = { app := a, escaped := none } ∧
    (HomeScreen.translateText net clk writeOk a).app.log = a.log ∧
    (HomeScreen.translateText net clk writeOk a).app.home.translatedText
      = a.home.translatedText ∧
    (HomeScreen.translateText net clk writeOk a).app.home.isLoading = a.home.isLoading ∧
    (HomeScreen.translateText net clk writeOk a).app.home.lastTranslations
      = a.home.lastTranslations ∧
    (HomeScreen.translateText net clk writeOk a).app.history = a.history ∧
    (HomeScreen.translateText net clk writeOk a).app.storage = a.storage ∧
    surfaced net clk writeOk a = [] := by
  have h : HomeScreen.translateText net clk writeOk a = { app := a, escaped := none } := by
    simp [HomeScreen.translateText, hempty]
  simp [surfaced, h, alertMessages]

/-- C13 on the sample application, whose input is empty, with a response that would
otherwise succeed. -/
theorem translateText_empty_input_witness :
    sampleApp.home.inputText = "" ∧
    HomeScreen.translateText (.parsed holaResponse) (sampleClock 2) true sampleApp
      = { app := sampleApp, escaped := none } :=
  ⟨rfl, (translateText_empty_input (.parsed holaResponse) (sampleClock 2) true sampleApp rfl).1⟩

/-! ## Appending after a clear -/

/-- C14 does not hold of the code: on a store that holds one record, once the home screen has
loaded it and the history screen has cleared the history (the key is then absent and the
history screen holds the empty sequence), the home screen still holds the old record, and an
append stores the new record followed by the old one, in memory and in the store; on a store
that never held a translation the same append stores the new record alone. -/
theorem clear_then_append_resurrects :
    (runOps (clearThenAppend.take 3) storedApp).storage = none ∧
    (runOps (clearThenAppend.take 3) storedApp).history.translations = .arr [] ∧
    (runOps (clearThenAppend.take 3) storedApp).home.lastTranslations
      = historyOf [helloRecord] ∧
    (runOps clearThenAppend storedApp).storage
      = some (.json (historyOf [recordOf (sampleClock 1) "en" "fr" "world" "monde",
          helloRecord])) ∧
    (runOps clearThenAppend storedApp).home.lastTranslations
      = historyOf [recordOf (sampleClock 1) "en" "fr" "world" "monde", helloRecord] ∧
    (runOps clearThenAppend App.initial).storage
      = some (.json (historyOf [recordOf (sampleClock 1) "en" "fr" "world" "monde"])) ∧
    [recordOf (sampleClock 1) "en" "fr" "world" "monde", helloRecord]
      ≠ [recordOf (sampleClock 1) "en" "fr" "world" "monde"] := by
  refine ⟨rfl, rfl, rfl, rfl, rfl, rfl, by decide⟩

end Translator
